import Mathlib

/-!
Verification of the SourceBox bridge components (source_bridge.py, gmod_bridge.py).

The development shallowly embeds the command/response wire format, the
command-counter state machines of `SourceBridge` and `GModBridge`, the
VDF library-folder scraper, the game-path resolver, the response watcher
loop, and the error-handling structure of the public bridge operations.
Python strings are modelled as `List Char`; machine integers do not
overflow in the modelled code paths, so counters are `Nat` and distances
are `Int`.
-/

namespace SourceBox

/-! ### Basic string helpers (Python semantics) -/

/-- Decimal digit character for `n < 10`. -/
def digitChar (n : Nat) : Char := Char.ofNat (48 + n)

/-- Decimal representation of a natural number, as Python `str(int)`
produces for non-negative values: no sign, no leading zeros. -/
def natDigits (n : Nat) : List Char :=
  if h : n < 10 then [digitChar n]
  else natDigits (n / 10) ++ [digitChar (n % 10)]
  termination_by n
  decreasing_by
    exact Nat.div_lt_self (by omega) (by omega)

/-- Decimal representation of an integer, as Python `str(int)`. -/
def intDigits (i : Int) : List Char :=
  if i < 0 then '-' :: natDigits i.natAbs else natDigits i.natAbs

/-- Python `needle in haystack` substring test, on char lists. -/
def containsSub (needle : List Char) (hay : List Char) : Bool :=
  match hay with
  | [] => needle.isEmpty
  | _ :: rest => needle.isPrefixOf hay || containsSub needle rest

/-- Python `str.replace(pat, repl)`: left-to-right, non-overlapping. -/
def pyReplace (pat repl : List Char) (s : List Char) : List Char :=
  match s with
  | [] => []
  | c :: rest =>
    if h : pat ≠ [] ∧ pat.isPrefixOf (c :: rest) then
      repl ++ pyReplace pat repl ((c :: rest).drop pat.length)
    else
      c :: pyReplace pat repl rest
  termination_by s.length
  decreasing_by
    · have hlen : 0 < pat.length := List.length_pos.mpr h.1
      have hle := (List.isPrefixOf_iff_prefix.mp h.2).length_le
      simp only [List.length_drop, List.length_cons] at *
      omega
    · simp

/-- Python truthiness of an optional string attribute (`None` and the
empty string are falsy). -/
def pyTruthy : Option (List Char) → Bool
  | none => false
  | some s => !s.isEmpty

/-! ### The spawn-command escaping of `SourceBridge.spawn`
(`model_path.replace('\\', '\\\\').replace('"', '\\"')`). -/

/-- `SourceBridge.spawn`'s escaping of the model path: first double every
backslash, then escape every double quote. -/
def escapeModel (m : List Char) : List Char :=
  pyReplace ['"'] ['\\', '"'] (pyReplace ['\\'] ['\\', '\\'] m)

/-- Per-character form of the same escaping. -/
def jesc (c : Char) : List Char :=
  if c = '\\' then ['\\', '\\']
  else if c = '"' then ['\\', '"']
  else [c]

/-! ### Wire command texts

`SourceBridge.spawn` builds its command with
`'{{"command":"spawn_model","model":"{}","distance":{},"id":{},"session":{}}}'.format(...)`,
`SourceBridge.reinstall_awp_outputs` with
`'{{"command":"reinstall_awp","id":{},"session":{}}}'.format(...)`, and
`GModBridge.spawn_model` / `GModBridge.ping` with `json.dumps` on a dict
with insertion order `command, model, distance, id, session` resp.
`command, id, session`.  Literal braces are written `\x7b`/`\x7d`. -/

/-- The command text written by `SourceBridge.spawn` (VScript path), for
model path `m`, coerced positive distance `dist`, command id `cid` and
session id `sid`. -/
def sourceSpawnCmd (m : List Char) (dist cid sid : Nat) : List Char :=
  "\x7b\"command\":\"spawn_model\",\"model\":\"".data ++ escapeModel m ++
  "\",\"distance\":".data ++ natDigits dist ++
  ",\"id\":".data ++ natDigits cid ++
  ",\"session\":".data ++ natDigits sid ++ ['\x7d']

/-- The command text written by `SourceBridge.reinstall_awp_outputs`. -/
def reinstallCmd (cid sid : Nat) : List Char :=
  "\x7b\"command\":\"reinstall_awp\",\"id\":".data ++ natDigits cid ++
  ",\"session\":".data ++ natDigits sid ++ ['\x7d']

/-- Lower-case hexadecimal digit character for `n < 16`. -/
def hexDigitChar (n : Nat) : Char :=
  if n < 10 then digitChar n else Char.ofNat (87 + n)

/-- Four-digit lower-case hex rendering, as in `\uXXXX` escapes. -/
def toHex4 (n : Nat) : List Char :=
  [hexDigitChar (n / 4096 % 16), hexDigitChar (n / 256 % 16),
   hexDigitChar (n / 16 % 16), hexDigitChar (n % 16)]

/-- Escaping of one character by Python `json.dumps` (default
`ensure_ascii=True`): printable ASCII other than `"` and `\` is literal,
short escapes for the usual control characters, `\uXXXX` otherwise, with
surrogate pairs above the BMP. -/
def pyJsonEscChar (c : Char) : List Char :=
  if c = '"' then ['\\', '"']
  else if c = '\\' then ['\\', '\\']
  else if 0x20 ≤ c.toNat && c.toNat ≤ 0x7e then [c]
  else if c = '\x08' then ['\\', 'b']
  else if c = '\t' then ['\\', 't']
  else if c = '\n' then ['\\', 'n']
  else if c = '\x0c' then ['\\', 'f']
  else if c = '\r' then ['\\', 'r']
  else if c.toNat < 0x10000 then '\\' :: 'u' :: toHex4 c.toNat
  else
    ('\\' :: 'u' :: toHex4 (0xd800 + (c.toNat - 0x10000) / 0x400)) ++
    ('\\' :: 'u' :: toHex4 (0xdc00 + (c.toNat - 0x10000) % 0x400))

/-- `json.dumps` of a Python string. -/
def pyJsonDumpsStr (s : List Char) : List Char :=
  '"' :: s.flatMap pyJsonEscChar ++ ['"']

/-- The command text written by `GModBridge.spawn_model`
(`json.dumps` of the five-key dict, default separators `", "`/`": "`). -/
def gmodSpawnCmd (m : List Char) (dist : Int) (cid sid : Nat) : List Char :=
  "\x7b\"command\": \"spawn_model\", \"model\": ".data ++ pyJsonDumpsStr m ++
  ", \"distance\": ".data ++ intDigits dist ++
  ", \"id\": ".data ++ natDigits cid ++
  ", \"session\": ".data ++ natDigits sid ++ ['\x7d']

/-- The command text written by `GModBridge.ping`. -/
def gmodPingCmd (cid sid : Nat) : List Char :=
  "\x7b\"command\": \"ping\", \"id\": ".data ++ natDigits cid ++
  ", \"session\": ".data ++ natDigits sid ++ ['\x7d']

/-! ### A JSON document recognizer (RFC 8259) -/

/-- Parsed JSON value; numbers keep their source text. -/
inductive JVal where
  | jnull : JVal
  | jbool : Bool → JVal
  | jnum : List Char → JVal
  | jstr : List Char → JVal
  | jarr : List JVal → JVal
  | jobj : List (List Char × JVal) → JVal

instance : Inhabited JVal := ⟨.jnull⟩

/-- RFC 8259 insignificant whitespace. -/
def isJsonWs (c : Char) : Bool :=
  c = ' ' || c = '\t' || c = '\n' || c = '\r'

/-- Drop leading JSON whitespace. -/
def skipWs : List Char → List Char
  | [] => []
  | c :: rest => if isJsonWs c then skipWs rest else c :: rest

/-- ASCII decimal digit test. -/
def isDigitC (c : Char) : Bool := 48 ≤ c.toNat && c.toNat ≤ 57

/-- ASCII hexadecimal digit test. -/
def isHexC (c : Char) : Bool :=
  isDigitC c || (97 ≤ c.toNat && c.toNat ≤ 102) || (65 ≤ c.toNat && c.toNat ≤ 70)

/-- Value of a hexadecimal digit character. -/
def hexVal (c : Char) : Nat :=
  if c.toNat ≤ 57 then c.toNat - 48
  else if c.toNat ≤ 70 then c.toNat - 55
  else c.toNat - 87

/-- Code point of a four-digit hex escape. -/
def hexNum (h1 h2 h3 h4 : Char) : Nat :=
  hexVal h1 * 4096 + hexVal h2 * 256 + hexVal h3 * 16 + hexVal h4

/-- Single-character JSON string escapes. -/
def escChar (e : Char) : Option Char :=
  if e = '"' then some '"'
  else if e = '\\' then some '\\'
  else if e = '/' then some '/'
  else if e = 'b' then some '\x08'
  else if e = 'f' then some '\x0c'
  else if e = 'n' then some '\n'
  else if e = 'r' then some '\r'
  else if e = 't' then some '\t'
  else none

mutual

/-- Parse the body of a JSON string after the opening quote; returns the
decoded characters and the input after the closing quote.  Unescaped
control characters (below `0x20`) are rejected, as RFC 8259 requires. -/
def parseStrBody : List Char → Option (List Char × List Char)
  | [] => none
  | c :: rest =>
    if c = '"' then some ([], rest)
    else if c = '\\' then parseEsc rest
    else if c.toNat < 0x20 then none
    else (parseStrBody rest).map (fun p => (c :: p.1, p.2))
  termination_by s => s.length

/-- Parse one escape sequence after a backslash. -/
def parseEsc : List Char → Option (List Char × List Char)
  | [] => none
  | e :: rest =>
    if e = 'u' then parseU rest
    else
      match escChar e with
      | some c => (parseStrBody rest).map (fun p => (c :: p.1, p.2))
      | none => none
  termination_by s => s.length

/-- Parse the four hex digits of a `\u` escape (with surrogate-pair
handling) and continue with the string body. -/
def parseU : List Char → Option (List Char × List Char)
  | h1 :: h2 :: h3 :: h4 :: rest =>
    if isHexC h1 && isHexC h2 && isHexC h3 && isHexC h4 then
      let n := hexNum h1 h2 h3 h4
      if 0xd800 ≤ n ∧ n ≤ 0xdbff then
        match rest with
        | '\\' :: 'u' :: g1 :: g2 :: g3 :: g4 :: rest2 =>
          if isHexC g1 && isHexC g2 && isHexC g3 && isHexC g4 then
            let l := hexNum g1 g2 g3 g4
            if 0xdc00 ≤ l ∧ l ≤ 0xdfff then
              (parseStrBody rest2).map
                (fun p => (Char.ofNat (0x10000 + (n - 0xd800) * 0x400 + (l - 0xdc00)) :: p.1, p.2))
            else none
          else none
        | _ => none
      else if 0xdc00 ≤ n ∧ n ≤ 0xdfff then none
      else (parseStrBody rest).map (fun p => (Char.ofNat n :: p.1, p.2))
    else none
  | _ => none
  termination_by s => s.length

end

/-- Longest prefix of decimal digits, and the rest. -/
def takeDigits : List Char → List Char × List Char
  | [] => ([], [])
  | c :: rest =>
    if isDigitC c then
      let p := takeDigits rest
      (c :: p.1, p.2)
    else ([], c :: rest)

/-- Optional fraction part (`.` followed by one or more digits). -/
def parseFracPart (s : List Char) : Option (List Char × List Char) :=
  match s with
  | c :: rest =>
    if c = '.' then
      let p := takeDigits rest
      if p.1.isEmpty then none else some ('.' :: p.1, p.2)
    else some ([], s)
  | [] => some ([], [])

/-- Optional exponent part (`e`/`E`, optional sign, one or more digits). -/
def parseExpPart (s : List Char) : Option (List Char × List Char) :=
  match s with
  | c :: rest =>
    if c = 'e' || c = 'E' then
      let sp : List Char × List Char :=
        match rest with
        | c2 :: r2 => if c2 = '+' || c2 = '-' then ([c2], r2) else ([], rest)
        | [] => ([], [])
      let p := takeDigits sp.2
      if p.1.isEmpty then none else some (c :: (sp.1 ++ p.1), p.2)
    else some ([], s)
  | [] => some ([], [])

/-- Parse the integer/fraction/exponent part of a JSON number after the
optional minus sign `sgn`. -/
def parseNumBody (sgn : List Char) : List Char → Option (List Char × List Char)
  | c :: rest =>
    if c = '0' then
      (parseFracPart rest).bind fun fp =>
        (parseExpPart fp.2).map fun ep => (sgn ++ '0' :: (fp.1 ++ ep.1), ep.2)
    else if isDigitC c then
      let td := takeDigits rest
      (parseFracPart td.2).bind fun fp =>
        (parseExpPart fp.2).map fun ep => (sgn ++ c :: (td.1 ++ fp.1 ++ ep.1), ep.2)
    else none
  | [] => none

/-- Parse a JSON number token; returns its text and the rest. -/
def parseNum (s : List Char) : Option (List Char × List Char) :=
  match s with
  | c :: r => if c = '-' then parseNumBody ['-'] r else parseNumBody [] s
  | [] => parseNumBody [] []

mutual

/-- Parse one JSON value (fuel-bounded on container nesting). -/
def parseV : Nat → List Char → Option (JVal × List Char)
  | 0, _ => none
  | f + 1, s =>
    if "null".data.isPrefixOf s then some (.jnull, s.drop 4)
    else if "true".data.isPrefixOf s then some (.jbool true, s.drop 4)
    else if "false".data.isPrefixOf s then some (.jbool false, s.drop 5)
    else
      match s with
      | [] => none
      | c :: r =>
        if c = '"' then (parseStrBody r).map (fun p => (.jstr p.1, p.2))
        else if c = '[' then
          let r1 := skipWs r
          if r1.head? = some ']' then some (.jarr [], r1.tail)
          else (parseElems f r1).map (fun p => (.jarr p.1, p.2))
        else if c = '\x7b' then
          let r1 := skipWs r
          if r1.head? = some '\x7d' then some (.jobj [], r1.tail)
          else (parseMembers f r1).map (fun p => (.jobj p.1, p.2))
        else (parseNum (c :: r)).map (fun p => (.jnum p.1, p.2))

/-- Parse the non-empty element list of an array. -/
def parseElems : Nat → List Char → Option (List JVal × List Char)
  | 0, _ => none
  | f + 1, s =>
    (parseV f (skipWs s)).bind fun p =>
      match skipWs p.2 with
      | ',' :: r2 => (parseElems f r2).map (fun q => (p.1 :: q.1, q.2))
      | ']' :: r2 => some ([p.1], r2)
      | _ => none

/-- Parse the non-empty member list of an object. -/
def parseMembers : Nat → List Char → Option (List (List Char × JVal) × List Char)
  | 0, _ => none
  | f + 1, s =>
    match skipWs s with
    | '"' :: r =>
      (parseStrBody r).bind fun kp =>
        match skipWs kp.2 with
        | ':' :: r2 =>
          (parseV f (skipWs r2)).bind fun vp =>
            match skipWs vp.2 with
            | ',' :: r4 => (parseMembers f r4).map (fun q => ((kp.1, vp.1) :: q.1, q.2))
            | '\x7d' :: r4 => some ([(kp.1, vp.1)], r4)
            | _ => none
        | _ => none
    | _ => none

end

/-- Parse a complete JSON document: one value surrounded by optional
whitespace, consuming the entire input. -/
def parseJsonL (s : List Char) : Option JVal :=
  match parseV (2 * s.length + 8) (skipWs s) with
  | some (v, r) => if (skipWs r).isEmpty then some v else none
  | none => none

/-- Whether a text is parseable as a JSON document. -/
def isJsonDoc (s : List Char) : Bool := (parseJsonL s).isSome

/-- Keys of a JSON document that is a top-level object, in order. -/
def topLevelKeys (s : List Char) : Option (List (List Char)) :=
  (parseJsonL s).bind fun v =>
    match v with
    | .jobj ms => some (ms.map Prod.fst)
    | _ => none

/-- Field lookup in a JSON document that is a top-level object. -/
def getField (s : List Char) (k : List Char) : Option JVal :=
  (parseJsonL s).bind fun v =>
    match v with
    | .jobj ms => (ms.find? (fun p => p.1 = k)).map Prod.snd
    | _ => none

/-- Condition on a continuation so that number parsing stops exactly there. -/
def numStop (rest : List Char) : Prop :=
  ∀ c, rest.head? = some c →
    isDigitC c = false ∧ c ≠ '.' ∧ c ≠ 'e' ∧ c ≠ 'E'

/-! ### Flat-object serialization

Every command the program writes is a one-level JSON object whose values
are strings or integers; the texts are exactly a flat-object
serialization with separator whitespace `sp` (`[]` for the hand-rolled
`format` strings, `[' ']` for `json.dumps` defaults). -/

/-- Serialized JSON string with the program's escaping. -/
def serStr (s : List Char) : List Char := '"' :: s.flatMap jesc ++ ['"']

/-- Serialized scalar value (containers do not occur in the commands). -/
def serScalar : JVal → List Char
  | .jnull => "null".data
  | .jbool true => "true".data
  | .jbool false => "false".data
  | .jnum d => d
  | .jstr s => serStr s
  | .jarr _ => []
  | .jobj _ => []

/-- Wellformedness of a scalar member value as the program produces it. -/
def scalarOk : JVal → Prop
  | .jnull => True
  | .jbool _ => True
  | .jnum d => ∃ i : Int, d = intDigits i
  | .jstr s => ∀ c ∈ s, 0x20 ≤ c.toNat
  | .jarr _ => False
  | .jobj _ => False

/-- Wellformed member: printable key and wellformed scalar value. -/
def memberOk (p : List Char × JVal) : Prop :=
  (∀ c ∈ p.1, 0x20 ≤ c.toNat) ∧ scalarOk p.2

/-- Members of a flat object joined with `':' ++ sp` and `',' ++ sp`. -/
def joinMembers (sp : List Char) : List (List Char × JVal) → List Char
  | [] => []
  | [p] => serStr p.1 ++ ':' :: (sp ++ serScalar p.2)
  | p :: q :: rest =>
      serStr p.1 ++ ':' :: (sp ++ serScalar p.2) ++
        ',' :: (sp ++ joinMembers sp (q :: rest))

/-! ### The four command texts as serialized flat objects -/

/-- Members of the `SourceBridge.spawn` command object. -/
def sourceSpawnMembers (m : List Char) (dist cid sid : Nat) :
    List (List Char × JVal) :=
  [("command".data, .jstr "spawn_model".data),
   ("model".data, .jstr m),
   ("distance".data, .jnum (natDigits dist)),
   ("id".data, .jnum (natDigits cid)),
   ("session".data, .jnum (natDigits sid))]

/-- Members of the `GModBridge.spawn_model` command object. -/
def gmodSpawnMembers (m : List Char) (dist : Int) (cid sid : Nat) :
    List (List Char × JVal) :=
  [("command".data, .jstr "spawn_model".data),
   ("model".data, .jstr m),
   ("distance".data, .jnum (intDigits dist)),
   ("id".data, .jnum (natDigits cid)),
   ("session".data, .jnum (natDigits sid))]

/-! ### The command-counter state machines (C1, C4)

`SourceBridge.__init__` sets `command_count = 0` and
`session_id = int(time.time()*1000) + random.randint(0, 9999)`;
`GModBridge.__init__` sets `command_id = 0` and
`session_id = int(time.time())`.  `spawn`, `reinstall_awp_outputs`,
`spawn_model` and `ping` each do `count += 1` and then write a command
carrying the new count and the session id. -/

/-- The mutable `GModBridge` attributes relevant to the wire protocol
(`is_connected()` abstracted to a boolean). -/
structure GModState where
  connected : Bool
  commandId : Nat
  sessionId : Nat

/-- The mutable `SourceBridge` attributes relevant to the wire protocol;
`gmod` is the optional `self.gmod_bridge`. -/
structure SBState where
  gamePath : Option (List Char)
  commandFile : Option (List Char)
  activeGame : Option (List Char)
  commandCount : Nat
  sessionId : Nat
  gmod : Option GModState

/-- `GModBridge.__init__`: counter 0, session `int(time.time())`. -/
def gmodInit (t : Nat) (connected : Bool) : GModState :=
  ⟨connected, 0, t⟩

/-- `SourceBridge.__init__`: counter 0, session
`int(time.time()*1000) + random.randint(0, 9999)` (`tms` is the
millisecond clock value, `r` the random summand). -/
def sbInit (tms r : Nat) (gamePath commandFile activeGame : Option (List Char))
    (gmod : Option GModState) : SBState :=
  ⟨gamePath, commandFile, activeGame, 0, tms + r, gmod⟩

/-- A command written to a command file: the id and session it carries
and its full text (built from them). -/
structure WireCmd where
  cid : Nat
  session : Nat
  text : List Char

/-- Which command file a write goes to. -/
inductive Channel where
  | sourceFile : Channel
  | gmodFile : Channel
  deriving DecidableEq

/-- `GModBridge.spawn_model`: guard `is_connected()`, then
`command_id += 1` and write `json.dumps` of the five-key dict inside
`try`; `writeOk` is whether that write succeeds (on an exception the
incremented id is consumed but nothing is written). -/
def gmodSpawnModelStep (g : GModState) (model : List Char) (distance : Int)
    (writeOk : Bool) : GModState × Option WireCmd :=
  if g.connected then
    ({ g with commandId := g.commandId + 1 },
     if writeOk then
       some ⟨g.commandId + 1, g.sessionId,
         gmodSpawnCmd model distance (g.commandId + 1) g.sessionId⟩
     else none)
  else (g, none)

/-- `GModBridge.ping`: guard `is_connected()`, then `command_id += 1`
and write the three-key dict inside `try`; a failed write consumes the
id without writing. -/
def gmodPingStep (g : GModState) (writeOk : Bool) : GModState × Option WireCmd :=
  if g.connected then
    ({ g with commandId := g.commandId + 1 },
     if writeOk then
       some ⟨g.commandId + 1, g.sessionId,
         gmodPingCmd (g.commandId + 1) g.sessionId⟩
     else none)
  else (g, none)

/-- The VScript branch of `SourceBridge.spawn`: if `command_file` is
truthy and `active_game` is falsy or does not contain `"Garry's Mod"`,
coerce non-positive distances to 200, do `command_count += 1` and write
the formatted command inside `try` (`except PermissionError` /
`except Exception` return `False`, so a failed write consumes the
incremented id without writing); otherwise fall back to `spawn_legacy`,
which never writes the command file. -/
def sbSpawnVScript (st : SBState) (model : List Char) (distance : Int)
    (writeOk : Bool) : SBState × Option (Channel × WireCmd) :=
  let gateOk :=
    match st.activeGame with
    | none => true
    | some ag => ag.isEmpty || !containsSub "Garry's Mod".data ag
  if pyTruthy st.commandFile && gateOk then
    let dist : Int := if distance ≤ 0 then 200 else distance
    ({ st with commandCount := st.commandCount + 1 },
     if writeOk then
       some (Channel.sourceFile,
         ⟨st.commandCount + 1, st.sessionId,
          sourceSpawnCmd model dist.toNat (st.commandCount + 1) st.sessionId⟩)
     else none)
  else (st, none)

/-- `SourceBridge.spawn`: guard game configured and model path truthy;
delegate to the GMod bridge when it is present and connected; otherwise
the VScript path. -/
def sbSpawnStep (st : SBState) (model : List Char) (distance : Int)
    (writeOk : Bool) : SBState × Option (Channel × WireCmd) :=
  if !pyTruthy st.gamePath && !pyTruthy st.activeGame then (st, none)
  else if model.isEmpty then (st, none)
  else
    match st.gmod with
    | some g =>
      if g.connected then
        let p := gmodSpawnModelStep g model distance writeOk
        ({ st with gmod := some p.1 }, p.2.map (fun w => (Channel.gmodFile, w)))
      else sbSpawnVScript st model distance writeOk
    | none => sbSpawnVScript st model distance writeOk

/-- `SourceBridge.reinstall_awp_outputs`: guard `game_path` and
`command_file` truthy, then `command_count += 1` and write inside `try`
(bare `except` returns `False`, so a failed write consumes the id). -/
def sbReinstallStep (st : SBState) (writeOk : Bool) :
    SBState × Option (Channel × WireCmd) :=
  if !pyTruthy st.gamePath || !pyTruthy st.commandFile then (st, none)
  else
    ({ st with commandCount := st.commandCount + 1 },
     if writeOk then
       some (Channel.sourceFile,
         ⟨st.commandCount + 1, st.sessionId,
          reinstallCmd (st.commandCount + 1) st.sessionId⟩)
     else none)

/-- One public command-writing operation on the bridge pair; `writeOk`
is the environment's verdict on the operation's `try`-guarded file
write (whether `open`/`write` raises). -/
inductive BridgeOp where
  | spawn (model : List Char) (distance : Int) (writeOk : Bool) : BridgeOp
  | reinstallAwp (writeOk : Bool) : BridgeOp
  | gmodSpawnModel (model : List Char) (distance : Int) (writeOk : Bool) : BridgeOp
  | gmodPing (writeOk : Bool) : BridgeOp

/-- Whether an operation's file write succeeds. -/
def opWriteOk : BridgeOp → Bool
  | .spawn _ _ w => w
  | .reinstallAwp w => w
  | .gmodSpawnModel _ _ w => w
  | .gmodPing w => w

/-- Step the bridge state by one operation, returning the command
written (if any) and where it was written. -/
def bridgeStep (st : SBState) (op : BridgeOp) :
    SBState × Option (Channel × WireCmd) :=
  match op with
  | .spawn m d w => sbSpawnStep st m d w
  | .reinstallAwp w => sbReinstallStep st w
  | .gmodSpawnModel m d w =>
    match st.gmod with
    | some g =>
      let p := gmodSpawnModelStep g m d w
      ({ st with gmod := some p.1 }, p.2.map (fun x => (Channel.gmodFile, x)))
    | none => (st, none)
  | .gmodPing w =>
    match st.gmod with
    | some g =>
      let p := gmodPingStep g w
      ({ st with gmod := some p.1 }, p.2.map (fun x => (Channel.gmodFile, x)))
    | none => (st, none)

/-- Run a sequence of operations, collecting written commands in order. -/
def bridgeRun (st : SBState) : List BridgeOp → SBState × List (Channel × WireCmd)
  | [] => (st, [])
  | op :: ops =>
    let p := bridgeStep st op
    let q := bridgeRun p.1 ops
    (q.1, p.2.toList ++ q.2)

/-- Ids carried by the commands written to a given channel. -/
def channelIds (ch : Channel) (tr : List (Channel × WireCmd)) : List Nat :=
  (tr.filter (fun e => e.1 = ch)).map (fun e => e.2.cid)

/-- The GMod counter visible in a bridge state (0 when absent). -/
def gmodCid (st : SBState) : Nat :=
  match st.gmod with
  | some g => g.commandId
  | none => 0

/-- The GMod session visible in a bridge state (0 when absent). -/
def gmodSession (st : SBState) : Nat :=
  match st.gmod with
  | some g => g.sessionId
  | none => 0

/-! ### The response watcher loop (C5)

`SourceBridge._watch_responses` is
`while self.running: try: [mtime check, maybe _handle_response];
time.sleep(0.05) except Exception: time.sleep(1)`, started by
`start_listening` and stopped solely by `stop()` setting
`self.running = False`. -/

/-- Externally visible actions of one watcher iteration. -/
inductive WatchAction where
  | checkFile : WatchAction        -- `os.path.getmtime(self.response_file)`
  | readFile : WatchAction         -- `_handle_response()` reads the response file
  | sleep (ms : Nat) : WatchAction -- `time.sleep(0.05)` / `time.sleep(1)`
  deriving DecidableEq

/-- Environment of one iteration: the value of `self.running` observed at
the `while` check, whether the response file exists, the `getmtime`
result (`none` models `FileNotFoundError`/`PermissionError`), and whether
anything else in the body raised (caught by the outer `except`). -/
structure WatchEnv where
  running : Bool
  fileExists : Bool
  mtime : Option Nat
  err : Bool

/-- One iteration body of `_watch_responses` (the part inside the outer
`try`), returning the updated `last_response_time` and its actions. -/
def watchBody (responseFile : Option (List Char)) (last : Nat) (e : WatchEnv) :
    Nat × List WatchAction :=
  if e.err then (last, [.sleep 1000])
  else if pyTruthy responseFile && e.fileExists then
    match e.mtime with
    | none => (last, [.checkFile, .sleep 50])
    | some mt =>
      if last < mt then (mt, [.checkFile, .readFile, .sleep 50])
      else (last, [.checkFile, .sleep 50])
  else (last, [.sleep 50])

/-- The watcher loop over a schedule of iteration environments: it runs
one body per iteration while `running` is observed true and returns as
soon as it observes false. -/
def watchLoop (responseFile : Option (List Char)) :
    List WatchEnv → Nat → List WatchAction
  | [], _ => []
  | e :: rest, last =>
    if e.running then
      let p := watchBody responseFile last e
      p.2 ++ watchLoop responseFile rest p.1
    else []

/-! ### The libraryfolders.vdf scraper (C6)

`_parse_library_folders_vdf` regex-scans the VDF text with
`'"path"\s+"([^"]+)"'`, collapses `'\\\\'` to `'\\'`, and appends each
existing, not-yet-seen library path to `[steam_path]`; on a missing file
or any exception it returns `[steam_path]`. -/

/-- Python `\s` on `str` patterns (Unicode whitespace). -/
def pyWsChar (c : Char) : Bool :=
  c.toNat = 32 || c.toNat = 9 || c.toNat = 10 || c.toNat = 11 || c.toNat = 12 ||
  c.toNat = 13 || (28 ≤ c.toNat && c.toNat ≤ 31) || c.toNat = 0x85 ||
  c.toNat = 0xa0 || c.toNat = 0x1680 ||
  (0x2000 ≤ c.toNat && c.toNat ≤ 0x200a) || c.toNat = 0x2028 ||
  c.toNat = 0x2029 || c.toNat = 0x202f || c.toNat = 0x205f || c.toNat = 0x3000

/-- Length of the leading whitespace run. -/
def countLeadWs : List Char → Nat
  | [] => 0
  | c :: rest => if pyWsChar c then countLeadWs rest + 1 else 0

/-- Try to match `"path"\s+"([^"]+)"` at the start of `s`; on success
return the capture and the total number of characters matched. -/
def matchPathAt (s : List Char) : Option (List Char × Nat) :=
  match s with
  | '"' :: 'p' :: 'a' :: 't' :: 'h' :: '"' :: rest =>
    let wsn := countLeadWs rest
    if wsn = 0 then none
    else
      match rest.drop wsn with
      | '"' :: rest2 =>
        let cap := rest2.takeWhile (fun c => !(c = '"'))
        if cap.isEmpty then none
        else
          match rest2.drop cap.length with
          | '"' :: _ => some (cap, 6 + wsn + 1 + cap.length + 1)
          | _ => none
      | _ => none
  | _ => none

/-- `re.findall` of the path pattern: non-overlapping matches scanning
left to right, advancing past each match. -/
def findallPaths : List Char → List (List Char)
  | [] => []
  | c :: rest =>
    match h : matchPathAt (c :: rest) with
    | some p => p.1 :: findallPaths ((c :: rest).drop p.2)
    | none => findallPaths rest
  termination_by s => s.length
  decreasing_by
    · have hpos : 1 ≤ p.2 := by
        obtain ⟨cap, n⟩ := p
        unfold matchPathAt at h
        split at h
        · dsimp only at h
          split at h
          · exact absurd h (by simp)
          · split at h
            · split at h
              · exact absurd h (by simp)
              · split at h
                · simp only [Option.some.injEq, Prod.mk.injEq] at h
                  omega
                · exact absurd h (by simp)
            · exact absurd h (by simp)
        · exact absurd h (by simp)
      simp only [List.length_drop, List.length_cons]
      omega
    · simp

/-- The appending loop of `_parse_library_folders_vdf`: collapse each
capture, keep it if it exists on disk and is not already present. -/
def vdfLoop (ex : List Char → Bool) :
    List (List Char) → List (List Char) → List (List Char)
  | [], libs => libs
  | m :: rest, libs =>
    let lp := pyReplace ['\\', '\\'] ['\\'] m
    if ex lp && !libs.contains lp then vdfLoop ex rest (libs ++ [lp])
    else vdfLoop ex rest libs

/-- `_parse_library_folders_vdf`: `content` is the VDF file text, `none`
when the file is absent or reading raises; `ex` is `os.path.exists`. -/
def parseLibraryFoldersVdf (steamPath : List Char) (content : Option (List Char))
    (ex : List Char → Bool) : List (List Char) :=
  match content with
  | none => [steamPath]
  | some text => vdfLoop ex (findallPaths text) [steamPath]

/-- Order-preserving deduplication keeping first occurrences. -/
def firstDedup {α : Type} [DecidableEq α] : List α → List α
  | [] => []
  | x :: rest => x :: firstDedup (rest.filter (fun y => y ≠ x))
  termination_by l => l.length
  decreasing_by
    have := List.length_filter_le (fun y => y ≠ x) rest
    simp only [List.length_cons]
    omega

/-! ### `_resolve_game_path` (C9)

The resolver builds candidate directories in a fixed order, deduplicates
them preserving first occurrence with a `seen` set, and returns the
first candidate that is an existing directory.  The `os.path` functions
are abstract environment parameters (the resolver's logic does not
depend on their implementation). -/

/-- Abstract `os.path` operations used by `_resolve_game_path`. -/
structure PathEnv where
  expanduser : List Char → List Char
  isAbs : List Char → Bool
  normpath : List Char → List Char
  join : List Char → List Char → List Char
  dirname : List Char → List Char
  isdir : List Char → Bool

/-- Python `str.strip(ch)`: remove all leading and trailing `ch`. -/
def pyStrip (ch : Char) (s : List Char) : List Char :=
  ((s.dropWhile (fun c => c = ch)).reverse.dropWhile (fun c => c = ch)).reverse

/-- ASCII `str.lower()`. -/
def toLowerAscii (s : List Char) : List Char :=
  s.map (fun c => if 65 ≤ c.toNat && c.toNat ≤ 90 then Char.ofNat (c.toNat + 32) else c)

/-- Python `str.find(sub)` as an optional index. -/
def findSub (pat : List Char) : List Char → Option Nat
  | [] => if pat.isEmpty then some 0 else none
  | c :: rest =>
    if pat.isPrefixOf (c :: rest) then some 0
    else (findSub pat rest).map (· + 1)

/-- The candidate list of `_resolve_game_path`, in source order: the
normalized argument itself when absolute; then, when an exe directory is
available, the argument joined to it, to its parent (when distinct and
non-empty), and — when the lowered exe directory contains `steamapps` —
to the `sourcemods` and `common` subdirectories of the steamapps root. -/
def resolveCandidates (env : PathEnv) (cleaned : List Char)
    (exeDir : Option (List Char)) : List (List Char) :=
  (if env.isAbs cleaned then [env.normpath cleaned] else []) ++
  (match exeDir with
   | none => []
   | some ed =>
     [env.normpath (env.join ed cleaned)] ++
     (let parent := env.dirname ed
      if !parent.isEmpty && !(parent == ed) then
        [env.normpath (env.join parent cleaned)]
      else []) ++
     (match findSub "steamapps".data (toLowerAscii ed) with
      | some idx =>
        let root := ed.take (idx + 9)
        [env.normpath (env.join (env.join root "sourcemods".data) cleaned),
         env.normpath (env.join (env.join root "common".data) cleaned)]
      | none => []))

/-- The `seen`-set deduplication loop of `_resolve_game_path`. -/
def dedupSeen {α : Type} [DecidableEq α] : List α → List α → List α
  | [], _ => []
  | c :: rest, seen =>
    if seen.contains c then dedupSeen rest seen
    else c :: dedupSeen rest (c :: seen)

/-- The final candidate scan: return the first existing directory. -/
def firstIsDir (env : PathEnv) : List (List Char) → Option (List Char)
  | [] => none
  | c :: rest => if env.isdir c then some c else firstIsDir env rest

/-- The exe directory used for relative candidates: available only when
`exe_path` is truthy and its `dirname` is truthy. -/
def resolveExeDir (env : PathEnv) (exePath : Option (List Char)) :
    Option (List Char) :=
  match exePath with
  | some p =>
    if p.isEmpty then none
    else if (env.dirname p).isEmpty then none
    else some (env.dirname p)
  | none => none

/-- `_resolve_game_path` itself: falsy argument resolves to `none`,
otherwise the first existing directory among the deduplicated
candidates. -/
def resolveGamePath (env : PathEnv) (gameArg : List Char)
    (exePath : Option (List Char)) : Option (List Char) :=
  if gameArg.isEmpty then none
  else
    let cleaned := env.expanduser (pyStrip '"' gameArg)
    firstIsDir env
      (dedupSeen (resolveCandidates env cleaned (resolveExeDir env exePath)) [])

/-! ### Error handling of the public bridge operations (C7)

Each fallible public operation wraps its I/O in `try/except`, prints,
and returns `False`; exceptions deriving `Exception` (the kind the file
operations raise) never propagate.  The fallible primitives are
environment parameters of type `Except PyExc _`. -/

/-- An exception deriving Python's `Exception`. -/
inductive PyExc where
  | exc : PyExc

/-- Python `try: body except: handler` (the handlers in these methods
catch every exception the modelled primitives can raise). -/
def pyTry (body : Except PyExc Bool) (handler : PyExc → Except PyExc Bool) :
    Except PyExc Bool :=
  match body with
  | .ok b => .ok b
  | .error e => handler e

/-- `SourceBridge.install_listener`: guard `vscripts_path`, then write
the listener file; `except PermissionError` / `except Exception` print
and return `False`. -/
def installListenerExc (vscriptsPath : Option (List Char))
    (writeRes : Except PyExc Unit) : Except PyExc Bool :=
  if !pyTruthy vscriptsPath then pure false
  else pyTry (writeRes.bind fun _ => pure true) (fun _ => pure false)

/-- `SourceBridge.install_picker`: same guard/try/except shape. -/
def installPickerExc (vscriptsPath : Option (List Char))
    (writeRes : Except PyExc Unit) : Except PyExc Bool :=
  if !pyTruthy vscriptsPath then pure false
  else pyTry (writeRes.bind fun _ => pure true) (fun _ => pure false)

/-- `SourceBridge.install_awp_quit`: same guard/try/except shape. -/
def installAwpQuitExc (vscriptsPath : Option (List Char))
    (writeRes : Except PyExc Unit) : Except PyExc Bool :=
  if !pyTruthy vscriptsPath then pure false
  else pyTry (writeRes.bind fun _ => pure true) (fun _ => pure false)

/-- `SourceBridge.install_auto_spawner`: same guard/try/except shape. -/
def installAutoSpawnerExc (vscriptsPath : Option (List Char))
    (writeRes : Except PyExc Unit) : Except PyExc Bool :=
  if !pyTruthy vscriptsPath then pure false
  else pyTry (writeRes.bind fun _ => pure true) (fun _ => pure false)

/-- `SourceBridge.setup_mapspawn`: same guard/try/except shape. -/
def setupMapspawnExc (vscriptsPath : Option (List Char))
    (writeRes : Except PyExc Unit) : Except PyExc Bool :=
  if !pyTruthy vscriptsPath then pure false
  else pyTry (writeRes.bind fun _ => pure true) (fun _ => pure false)

/-- `SourceBridge.start_listening`: guard `game_path`, start the watcher
thread inside `try`; `except Exception` prints and returns `False`. -/
def startListeningExc (gamePath : Option (List Char))
    (threadStart : Except PyExc Unit) : Except PyExc Bool :=
  if !pyTruthy gamePath then pure false
  else pyTry (threadStart.bind fun _ => pure true) (fun _ => pure false)

/-- `GModBridge.spawn_model`: guard `is_connected()`, write the command
inside `try`; `except Exception` prints and returns `False`. -/
def gmodSpawnModelExc (connected : Bool) (writeRes : Except PyExc Unit) :
    Except PyExc Bool :=
  if !connected then pure false
  else pyTry (writeRes.bind fun _ => pure true) (fun _ => pure false)

/-- `GModBridge.ping`: guard `is_connected()`, write inside a bare
`try/except` returning `False`. -/
def gmodPingExc (connected : Bool) (writeRes : Except PyExc Unit) :
    Except PyExc Bool :=
  if !connected then pure false
  else pyTry (writeRes.bind fun _ => pure true) (fun _ => pure false)

/-- `SourceBridge.spawn_legacy`: early `False` returns for GMod, a falsy
active game, non-Windows or missing win32 API; the whole injection body
is inside a bare `try/except` returning `False`. -/
def spawnLegacyExc (activeGame : Option (List Char)) (isWindows winApi : Bool)
    (body : Except PyExc Bool) : Except PyExc Bool :=
  if pyTruthy activeGame &&
      containsSub "Garry's Mod".data (activeGame.getD []) then pure false
  else if !pyTruthy activeGame || !isWindows then pure false
  else if !winApi then pure false
  else pyTry body (fun _ => pure false)

/-- `SourceBridge.spawn`: guards, GMod delegation, the VScript write
path (`except PermissionError` / `except Exception` → `False`), or the
legacy fallback. -/
def spawnExc (st : SBState) (model : List Char)
    (gmodWriteRes vscriptWriteRes : Except PyExc Unit)
    (isWindows winApi : Bool) (legacyBody : Except PyExc Bool) :
    Except PyExc Bool :=
  if !pyTruthy st.gamePath && !pyTruthy st.activeGame then pure false
  else if model.isEmpty then pure false
  else
    let vscriptOrLegacy : Except PyExc Bool :=
      let gateOk :=
        match st.activeGame with
        | none => true
        | some ag => ag.isEmpty || !containsSub "Garry's Mod".data ag
      if pyTruthy st.commandFile && gateOk then
        pyTry (vscriptWriteRes.bind fun _ => pure true) (fun _ => pure false)
      else spawnLegacyExc st.activeGame isWindows winApi legacyBody
    match st.gmod with
    | some g =>
      if g.connected then gmodSpawnModelExc g.connected gmodWriteRes
      else vscriptOrLegacy
    | none => vscriptOrLegacy

/-! ### The detection flow (C8)

`_detect_running_game` calls `_get_steam_install_path` (registry or home
paths, then a `psutil.process_iter` scan for a running Steam executable,
then default locations), prints and returns when nothing is found, and
otherwise parses `libraryfolders.vdf` and only then iterates running
processes to match games.  The per-process matching and setup from line
489 onward is the continuation `cont`. -/

/-- Externally visible actions of the detection flow. -/
inductive DetectAction where
  | readRegistry : DetectAction          -- winreg probing (Windows)
  | checkHomePaths : DetectAction        -- Linux home/flatpak path checks
  | checkDefaultPaths : DetectAction     -- Windows default install locations
  | enumProcessesForSteam : DetectAction -- process_iter in _get_steam_path_from_process
  | parseVdf (steamPath : List Char) : DetectAction -- library enumeration
  | enumProcessesForGames : DetectAction -- process_iter in _detect_running_game
  | printErr (msg : List Char) : DetectAction
  | writeFile (p : List Char) : DetectAction
  deriving DecidableEq

/-- Environment of the Steam lookup. -/
structure SteamEnv where
  system : List Char
  registryPath : Option (List Char)
  processSteamPath : Option (List Char)
  defaultPath : Option (List Char)
  homePath : Option (List Char)

/-- `_get_steam_install_path` with its action trace: on Windows registry,
then the steam-process scan, then default paths; on Linux home/flatpak
paths, then the steam-process scan; `none` elsewhere. -/
def getSteamInstallPath (env : SteamEnv) :
    Option (List Char) × List DetectAction :=
  if env.system = "Windows".data then
    match env.registryPath with
    | some p => (some p, [.readRegistry])
    | none =>
      match env.processSteamPath with
      | some p => (some p, [.readRegistry, .enumProcessesForSteam])
      | none =>
        match env.defaultPath with
        | some p =>
          (some p, [.readRegistry, .enumProcessesForSteam, .checkDefaultPaths])
        | none =>
          (none, [.readRegistry, .enumProcessesForSteam, .checkDefaultPaths])
  else if env.system = "Linux".data then
    match env.homePath with
    | some p => (some p, [.checkHomePaths])
    | none =>
      match env.processSteamPath with
      | some p => (some p, [.checkHomePaths, .enumProcessesForSteam])
      | none => (none, [.checkHomePaths, .enumProcessesForSteam])
  else (none, [])

/-- The five attributes the claim is about. -/
structure DetectState where
  activeGame : Option (List Char)
  gamePath : Option (List Char)
  vscriptsPath : Option (List Char)
  commandFile : Option (List Char)
  responseFile : Option (List Char)

/-- The attribute values set by `__init__` before detection. -/
def detectInitState : DetectState := ⟨none, none, none, none, none⟩

/-- `_detect_running_game`: Steam lookup; on failure print and return;
on success parse the library folders and then enumerate running
processes, handing the libraries to the matching continuation. -/
def detectRunningGame (env : SteamEnv) (vdfContent : Option (List Char))
    (ex : List Char → Bool)
    (cont : List (List Char) → DetectState × List DetectAction)
    (st : DetectState) : DetectState × List DetectAction :=
  match (getSteamInstallPath env).1 with
  | none =>
    (st, (getSteamInstallPath env).2 ++
      [.printErr "steam installation not found".data])
  | some p =>
    let rest := cont (parseLibraryFoldersVdf p vdfContent ex)
    (rest.1, (getSteamInstallPath env).2 ++
      [.parseVdf p] ++ [.enumProcessesForGames] ++ rest.2)

/-! ## Theorems -/

theorem pyReplace_single (q : Char) (repl : List Char) (s : List Char) :
    pyReplace [q] repl s = s.flatMap (fun c => if c = q then repl else [c]) := by
  induction s with
  | nil => simp [pyReplace]
  | cons c rest ih =>
    rw [pyReplace]
    by_cases hc : c = q
    · subst hc
      simp [List.isPrefixOf, ih]
    · have hq : ¬q = c := fun h => hc h.symm
      simp [List.isPrefixOf, hc, hq, ih]

/-- The two sequential replaces equal a single per-character expansion. -/
theorem escapeModel_eq_flatMap (m : List Char) :
    escapeModel m = m.flatMap jesc := by
  unfold escapeModel
  rw [pyReplace_single, pyReplace_single]
  induction m with
  | nil => simp
  | cons c rest ih =>
    simp only [List.flatMap_cons, List.flatMap_append, ih]
    congr 1
    by_cases h1 : c = '\\'
    · subst h1; simp [jesc]
    · by_cases h2 : c = '"'
      · subst h2; simp [jesc]
      · simp [jesc, h1, h2]

/-! ### Roundtrip lemmas: the program's command texts parse back -/

theorem skipWs_append_ws (sp : List Char) (hsp : sp.all isJsonWs) (x : List Char) :
    skipWs (sp ++ x) = skipWs x := by
  induction sp with
  | nil => simp
  | cons c t ih =>
    simp only [List.all_cons, Bool.and_eq_true] at hsp
    simp [skipWs, hsp.1, ih hsp.2]

theorem skipWs_not_ws (c : Char) (hc : ¬ isJsonWs c = true) (t : List Char) :
    skipWs (c :: t) = c :: t := by
  simp [skipWs, hc]

/-- Decoding an escaped (printable) string body recovers the original. -/
theorem strBody_ser (s : List Char) (hs : ∀ c ∈ s, 0x20 ≤ c.toNat) (rest : List Char) :
    parseStrBody (s.flatMap jesc ++ '"' :: rest) = some (s, rest) := by
  induction s with
  | nil => simp [parseStrBody]
  | cons c t ih =>
    have hc : 0x20 ≤ c.toNat := hs c (by simp)
    have ht : ∀ x ∈ t, 0x20 ≤ x.toNat := fun x hx => hs x (by simp [hx])
    by_cases h1 : c = '\\'
    · subst h1
      simp [jesc, parseStrBody, parseEsc, escChar, ih ht]
    · by_cases h2 : c = '"'
      · subst h2
        simp [jesc, parseStrBody, parseEsc, escChar, ih ht]
      · have h3 : ¬ c.toNat < 0x20 := by omega
        simp [jesc, h1, h2, parseStrBody, h3, ih ht]

theorem digitChar_toNat {n : Nat} (hn : n < 10) : (digitChar n).toNat = 48 + n := by
  interval_cases n <;> decide

theorem isDigitC_digitChar {n : Nat} (hn : n < 10) : isDigitC (digitChar n) = true := by
  simp [isDigitC, digitChar_toNat hn]
  omega

/-- Structure of `natDigits`: a digit string whose head is `'0'` only for `0`. -/
theorem natDigits_struct (n : Nat) :
    ∃ c t, natDigits n = c :: t ∧ isDigitC c = true ∧ (∀ x ∈ t, isDigitC x = true) ∧
      (n ≠ 0 → c ≠ '0') := by
  induction n using Nat.strong_induction_on with
  | _ n ih =>
    rw [natDigits]
    by_cases h : n < 10
    · refine ⟨digitChar n, [], by simp [h], isDigitC_digitChar h, by simp, ?_⟩
      intro hn h0
      have := digitChar_toNat h
      rw [h0] at this
      simp at this
      omega
    · have hd : n / 10 < n := Nat.div_lt_self (by omega) (by omega)
      obtain ⟨c, t, hct, hcd, htd, hc0⟩ := ih (n / 10) hd
      refine ⟨c, t ++ [digitChar (n % 10)], by simp [h, hct], hcd, ?_, ?_⟩
      · intro x hx
        rcases List.mem_append.mp hx with hx | hx
        · exact htd x hx
        · simp at hx
          subst hx
          exact isDigitC_digitChar (Nat.mod_lt _ (by omega))
      · intro _
        exact hc0 (by omega)

theorem natDigits_all_digit (n : Nat) : ∀ x ∈ natDigits n, isDigitC x = true := by
  obtain ⟨c, t, hct, hcd, htd, _⟩ := natDigits_struct n
  rw [hct]
  intro x hx
  rcases List.mem_cons.mp hx with hx | hx
  · subst hx; exact hcd
  · exact htd x hx

theorem takeDigits_all (ds : List Char) (hds : ∀ x ∈ ds, isDigitC x = true)
    (rest : List Char) (hrest : numStop rest) :
    takeDigits (ds ++ rest) = (ds, rest) := by
  induction ds with
  | nil =>
    match rest with
    | [] => simp [takeDigits]
    | c :: t =>
      have := (hrest c (by simp)).1
      simp [takeDigits, this]
  | cons c t ih =>
    have hc := hds c (by simp)
    have ht : ∀ x ∈ t, isDigitC x = true := fun x hx => hds x (by simp [hx])
    simp [takeDigits, hc, ih ht]

theorem parseFracPart_stop (rest : List Char) (hrest : numStop rest) :
    parseFracPart rest = some ([], rest) := by
  match rest with
  | [] => simp [parseFracPart]
  | c :: t =>
    have := hrest c (by simp)
    simp [parseFracPart, this.2.1]

theorem parseExpPart_stop (rest : List Char) (hrest : numStop rest) :
    parseExpPart rest = some ([], rest) := by
  match rest with
  | [] => simp [parseExpPart]
  | c :: t =>
    have h := hrest c (by simp)
    simp [parseExpPart, h.2.2.1, h.2.2.2]

theorem parseNumBody_digits (sgn : List Char) (n : Nat) (rest : List Char)
    (hrest : numStop rest) :
    parseNumBody sgn (natDigits n ++ rest) = some (sgn ++ natDigits n, rest) := by
  obtain ⟨c, t, hct, hcd, htd, hc0⟩ := natDigits_struct n
  rw [hct]
  by_cases h0 : c = '0'
  · subst h0
    have hn0 : n = 0 := by
      by_contra hn
      exact hc0 hn rfl
    subst hn0
    have ht0 : t = [] := by
      have := natDigits_struct 0
      rw [natDigits] at hct
      simp at hct
      simp [hct.2]
    subst ht0
    simp [parseNumBody, parseFracPart_stop rest hrest, parseExpPart_stop rest hrest]
  · simp only [List.cons_append, parseNumBody, h0, if_false, hcd, if_true]
    rw [takeDigits_all t htd rest hrest]
    simp [parseFracPart_stop rest hrest, parseExpPart_stop rest hrest]

theorem isDigitC_ne_chars {c : Char} (hc : isDigitC c = true) :
    c ≠ '-' ∧ c ≠ '"' ∧ c ≠ '[' ∧ c ≠ '\x7b' ∧ ¬ isJsonWs c = true := by
  simp only [isDigitC, Bool.and_eq_true, decide_eq_true_eq] at hc
  refine ⟨?_, ?_, ?_, ?_, ?_⟩
  · intro h; rw [h] at hc; revert hc; decide
  · intro h; rw [h] at hc; revert hc; decide
  · intro h; rw [h] at hc; revert hc; decide
  · intro h; rw [h] at hc; revert hc; decide
  · intro h
    simp only [isJsonWs, Bool.or_eq_true, decide_eq_true_eq] at h
    rcases h with ((h | h) | h) | h <;> rw [h] at hc <;> revert hc <;> decide

theorem parseNum_natDigits (n : Nat) (rest : List Char) (hrest : numStop rest) :
    parseNum (natDigits n ++ rest) = some (natDigits n, rest) := by
  obtain ⟨c, t, hct, hcd, htd, hc0⟩ := natDigits_struct n
  have hne := (isDigitC_ne_chars hcd).1
  rw [hct]
  simp only [List.cons_append, parseNum, hne, if_false]
  rw [← List.cons_append, ← hct]
  simpa using parseNumBody_digits [] n rest hrest

/-- `intDigits` of a non-negative integer is `natDigits`. -/
theorem intDigits_ofNat (n : Nat) : intDigits (n : Int) = natDigits n := by
  simp [intDigits]

theorem parseNum_intDigits (i : Int) (rest : List Char) (hrest : numStop rest) :
    parseNum (intDigits i ++ rest) = some (intDigits i, rest) := by
  by_cases hi : i < 0
  · simp only [intDigits, hi, if_true, List.cons_append, parseNum, if_pos rfl]
    exact parseNumBody_digits ['-'] i.natAbs rest hrest
  · simp only [intDigits, hi, if_false]
    exact parseNum_natDigits i.natAbs rest hrest

theorem intDigits_head (i : Int) :
    ∃ c t, intDigits i = c :: t ∧ (c = '-' ∨ isDigitC c = true) := by
  by_cases hi : i < 0
  · exact ⟨'-', natDigits i.natAbs, by simp [intDigits, hi], Or.inl rfl⟩
  · obtain ⟨c, t, hct, hcd, _, _⟩ := natDigits_struct i.natAbs
    exact ⟨c, t, by simp [intDigits, hi, hct], Or.inr hcd⟩

/-- A serialized scalar parses back to itself before any non-number
continuation. -/
theorem parseV_ser_scalar (v : JVal) (hv : scalarOk v) (f : Nat)
    (rest : List Char) (hrest : numStop rest) :
    parseV (f + 1) (serScalar v ++ rest) = some (v, rest) := by
  match v with
  | .jnull =>
    have hp : ("null".data).isPrefixOf ("null".data ++ rest) = true :=
      List.isPrefixOf_iff_prefix.mpr (List.prefix_append _ _)
    simp [serScalar, parseV, hp]
  | .jbool true =>
    have hp : ("true".data).isPrefixOf ("true".data ++ rest) = true :=
      List.isPrefixOf_iff_prefix.mpr (List.prefix_append _ _)
    simp [serScalar, parseV, hp, List.isPrefixOf]
  | .jbool false =>
    have hp : ("false".data).isPrefixOf ("false".data ++ rest) = true :=
      List.isPrefixOf_iff_prefix.mpr (List.prefix_append _ _)
    simp [serScalar, parseV, hp, List.isPrefixOf]
  | .jstr s =>
    simp only [serScalar, serStr, List.cons_append, List.append_assoc,
      List.singleton_append]
    simp [parseV, List.isPrefixOf, strBody_ser s hv rest]
  | .jnum d =>
    obtain ⟨i, hd⟩ := hv
    obtain ⟨c, t, hct, hc⟩ := intDigits_head i
    subst hd
    rw [hct]
    have hnum := parseNum_intDigits i rest hrest
    rw [hct] at hnum
    have hc4 : c ≠ '"' ∧ c ≠ '[' ∧ c ≠ '\x7b' ∧
        ¬ (("null".data).isPrefixOf (c :: (t ++ rest))) ∧
        ¬ (("true".data).isPrefixOf (c :: (t ++ rest))) ∧
        ¬ (("false".data).isPrefixOf (c :: (t ++ rest))) := by
      rcases hc with hc | hc
      · subst hc
        refine ⟨by decide, by decide, by decide, ?_, ?_, ?_⟩ <;>
          simp [List.isPrefixOf]
      · obtain ⟨_, h1, h2, h3, _⟩ := isDigitC_ne_chars hc
        refine ⟨h1, h2, h3, ?_, ?_, ?_⟩ <;>
          · simp only [List.isPrefixOf, Bool.and_eq_true, beq_iff_eq]
            intro hpre
            simp only [isDigitC, Bool.and_eq_true, decide_eq_true_eq] at hc
            rw [← hpre.1] at hc
            revert hc
            decide
    simp only [List.cons_append] at hnum
    simp only [serScalar, List.cons_append, parseV, hc4.2.2.2.1, if_false,
      hc4.2.2.2.2.1, hc4.2.2.2.2.2, hc4.1, hc4.2.1, hc4.2.2.1,
      Bool.false_eq_true, hnum, Option.map_some]
    rfl
  | .jarr xs => exact absurd hv (by simp [scalarOk])
  | .jobj ms => exact absurd hv (by simp [scalarOk])

theorem parseMembers_leading_ws (f : Nat) (sp s : List Char)
    (hsp : sp.all isJsonWs = true) :
    parseMembers f (sp ++ s) = parseMembers f s := by
  match f with
  | 0 => rfl
  | f + 1 => rw [parseMembers, parseMembers, skipWs_append_ws sp hsp]

theorem skipWs_serScalar (v : JVal) (hv : scalarOk v) (c : Char)
    (hc : ¬ isJsonWs c = true) (t : List Char) :
    skipWs (serScalar v ++ c :: t) = serScalar v ++ c :: t := by
  match v with
  | .jnull => simp [serScalar, skipWs, isJsonWs]
  | .jbool true => simp [serScalar, skipWs, isJsonWs]
  | .jbool false => simp [serScalar, skipWs, isJsonWs]
  | .jstr s => simp [serScalar, serStr, skipWs, isJsonWs]
  | .jnum d =>
    obtain ⟨i, hd⟩ := hv
    obtain ⟨c2, t2, hct, hc2⟩ := intDigits_head i
    subst hd
    simp only [serScalar]
    rw [hct]
    simp only [List.cons_append]
    rcases hc2 with h | h
    · subst h; simp [skipWs, isJsonWs]
    · have h2 := (isDigitC_ne_chars h).2.2.2.2
      simp only [Bool.not_eq_true] at h2
      simp [skipWs, h2]
  | .jarr xs => exact absurd hv (by simp [scalarOk])
  | .jobj ms => exact absurd hv (by simp [scalarOk])

/-- Parsing one serialized member followed by `','` or `'\x7d'`. -/
theorem parseMembers_step (f : Nat) (k : List Char) (hk : ∀ c ∈ k, 0x20 ≤ c.toNat)
    (v : JVal) (hv : scalarOk v) (sp : List Char) (hsp : sp.all isJsonWs = true)
    (c : Char) (hc : c = ',' ∨ c = '\x7d') (tail : List Char) :
    parseMembers (f + 2) (serStr k ++ ':' :: (sp ++ serScalar v) ++ c :: tail) =
      (if c = ','
        then (parseMembers (f + 1) tail).map (fun q => ((k, v) :: q.1, q.2))
        else some ([(k, v)], tail)) := by
  have hstop : numStop (c :: tail) := by
    intro x hx
    simp only [List.head?_cons, Option.some.injEq] at hx
    subst hx
    rcases hc with h | h <;> subst h <;> refine ⟨by decide, by decide, by decide, by decide⟩
  rcases hc with h | h <;> subst h <;>
    simp only [serStr, List.cons_append, List.append_assoc, List.singleton_append,
      List.nil_append, parseMembers, skipWs_not_ws '"' (by decide),
      strBody_ser k hk, Option.some_bind, Option.bind_some,
      skipWs_not_ws ':' (by decide), skipWs_append_ws sp hsp,
      skipWs_serScalar v hv ',' (by decide), skipWs_serScalar v hv '\x7d' (by decide),
      parseV_ser_scalar v hv f _ hstop, skipWs_not_ws ',' (by decide),
      skipWs_not_ws '\x7d' (by decide), reduceCtorEq, if_true, if_false] <;>
    rfl

/-- A serialized member list parses back to itself. -/
theorem parseMembers_ser (sp : List Char) (hsp : sp.all isJsonWs = true) :
    ∀ (ms : List (List Char × JVal)) (f : Nat) (rest : List Char),
      (∀ p ∈ ms, memberOk p) → ms ≠ [] → 2 * ms.length ≤ f →
      parseMembers f (joinMembers sp ms ++ '\x7d' :: rest) = some (ms, rest) := by
  intro ms
  induction ms with
  | nil => intro f rest _ hne _; exact absurd rfl hne
  | cons p ms' ih =>
    intro f rest hok _ hf
    obtain ⟨k, v⟩ := p
    have hkok : ∀ c ∈ k, 0x20 ≤ c.toNat := (hok (k, v) (by simp)).1
    have hvok : scalarOk v := (hok (k, v) (by simp)).2
    obtain ⟨g, rfl⟩ : ∃ g, f = g + 2 := ⟨f - 2, by simp at hf; omega⟩
    match ms' with
    | [] =>
      have hstep := parseMembers_step g k hkok v hvok sp hsp '\x7d' (Or.inr rfl) rest
      simp only [reduceCtorEq, if_false] at hstep
      simpa [joinMembers, List.append_assoc] using hstep
    | q :: ms'' =>
      have hih := ih (g + 1) rest (fun p hp => hok p (by simp [hp]))
        (by simp) (by simp at hf ⊢; omega)
      have hstep := parseMembers_step g k hkok v hvok sp hsp ',' (Or.inl rfl)
        (sp ++ (joinMembers sp (q :: ms'') ++ '\x7d' :: rest))
      rw [parseMembers_leading_ws (g + 1) sp _ hsp, hih] at hstep
      simp only [if_true, Option.map_some] at hstep
      simpa [joinMembers, List.append_assoc] using hstep

theorem serStr_length_pos (s : List Char) : 0 < (serStr s).length := by
  simp [serStr]

theorem joinMembers_length (sp : List Char) (ms : List (List Char × JVal)) :
    ms.length ≤ (joinMembers sp ms).length := by
  induction ms with
  | nil => simp [joinMembers]
  | cons p ms' ih =>
    match ms' with
    | [] =>
      have := serStr_length_pos p.1
      simp [joinMembers]
      omega
    | q :: ms'' =>
      have h1 := serStr_length_pos p.1
      simp only [joinMembers, List.length_cons, List.length_append] at ih ⊢
      simp
      omega

theorem joinMembers_cons_shape (sp : List Char) (p : List Char × JVal)
    (ms' : List (List Char × JVal)) :
    ∃ t, joinMembers sp (p :: ms') = '"' :: t := by
  match ms' with
  | [] =>
    exact ⟨p.1.flatMap jesc ++ '"' :: ':' :: (sp ++ serScalar p.2),
      by simp [joinMembers, serStr]⟩
  | q :: r =>
    exact ⟨p.1.flatMap jesc ++ '"' :: ':' ::
        (sp ++ (serScalar p.2 ++ ',' :: (sp ++ joinMembers sp (q :: r)))),
      by simp [joinMembers, serStr]⟩

/-- The complete serialized flat object parses as a JSON document to
exactly its member list. -/
theorem parseJsonL_flat (sp : List Char) (hsp : sp.all isJsonWs = true)
    (ms : List (List Char × JVal)) (hok : ∀ p ∈ ms, memberOk p) (hne : ms ≠ []) :
    parseJsonL ('\x7b' :: (joinMembers sp ms ++ ['\x7d'])) = some (.jobj ms) := by
  obtain ⟨p, ms', rfl⟩ : ∃ p ms', ms = p :: ms' := by
    match ms with
    | [] => exact absurd rfl hne
    | p :: ms' => exact ⟨p, ms', rfl⟩
  obtain ⟨t, ht⟩ := joinMembers_cons_shape sp p ms'
  have hlen := joinMembers_length sp (p :: ms')
  set jm := joinMembers sp (p :: ms') with hjm
  have hmem : parseMembers (2 * ('\x7b' :: (jm ++ ['\x7d'])).length + 7)
      (jm ++ '\x7d' :: ([] : List Char)) = some (p :: ms', []) := by
    apply parseMembers_ser sp hsp (p :: ms') _ [] hok (by simp)
    simp only [List.length_cons, List.length_append, List.length_nil] at hlen ⊢
    omega
  have hv : parseV (2 * ('\x7b' :: (jm ++ ['\x7d'])).length + 8)
      ('\x7b' :: (jm ++ ['\x7d'])) = some (.jobj (p :: ms'), []) := by
    rw [show 2 * ('\x7b' :: (jm ++ ['\x7d'])).length + 8 =
      (2 * ('\x7b' :: (jm ++ ['\x7d'])).length + 7) + 1 by omega]
    rw [parseV]
    rw [ht]
    simp only [List.cons_append, List.isPrefixOf, Bool.and_eq_true, beq_iff_eq,
      reduceCtorEq, if_false]
    simp only [show ('\x7b' : Char) ≠ '"' by decide,
      show ('\x7b' : Char) ≠ '[' by decide, if_false, if_pos rfl]
    rw [skipWs_not_ws '"' (by decide)]
    simp only [List.head?_cons, Option.some.injEq, show ('"' : Char) ≠ '\x7d' by decide,
      if_false]
    rw [← List.cons_append, ← ht]
    rw [show jm ++ ['\x7d'] = jm ++ '\x7d' :: ([] : List Char) by simp]
    rw [hmem]
    rfl
  simp only [parseJsonL]
  rw [skipWs_not_ws '\x7b' (by decide), hv]
  simp [skipWs]

theorem sourceSpawnCmd_shape (m : List Char) (dist cid sid : Nat) :
    sourceSpawnCmd m dist cid sid =
      '\x7b' :: (joinMembers [] (sourceSpawnMembers m dist cid sid) ++ ['\x7d']) := by
  simp only [sourceSpawnCmd, sourceSpawnMembers, joinMembers, serStr, serScalar,
    escapeModel_eq_flatMap, List.append_assoc, List.cons_append, List.nil_append,
    List.singleton_append]
  rfl

theorem reinstallCmd_shape (cid sid : Nat) :
    reinstallCmd cid sid =
      '\x7b' :: (joinMembers []
        [("command".data, .jstr "reinstall_awp".data),
         ("id".data, .jnum (natDigits cid)),
         ("session".data, .jnum (natDigits sid))] ++ ['\x7d']) := by
  simp only [reinstallCmd, joinMembers, serStr, serScalar,
    List.append_assoc, List.cons_append, List.nil_append, List.singleton_append]
  rfl

theorem pyJsonEscChar_printable (c : Char) (h1 : 0x20 ≤ c.toNat)
    (h2 : c.toNat ≤ 0x7e) : pyJsonEscChar c = jesc c := by
  by_cases hq : c = '"'
  · simp [pyJsonEscChar, jesc, hq]
  · by_cases hb : c = '\\'
    · simp [pyJsonEscChar, jesc, hq, hb]
    · simp [pyJsonEscChar, jesc, hq, hb, h1, h2]

theorem pyJsonDumpsStr_printable (m : List Char)
    (hm : ∀ c ∈ m, 0x20 ≤ c.toNat ∧ c.toNat ≤ 0x7e) :
    pyJsonDumpsStr m = serStr m := by
  have hfm : ∀ mm : List Char, (∀ c ∈ mm, 0x20 ≤ c.toNat ∧ c.toNat ≤ 0x7e) →
      mm.flatMap pyJsonEscChar = mm.flatMap jesc := by
    intro mm
    induction mm with
    | nil => intro _; rfl
    | cons c t ih =>
      intro hmm
      have hc := hmm c (by simp)
      simp only [List.flatMap_cons, pyJsonEscChar_printable c hc.1 hc.2,
        ih (fun x hx => hmm x (by simp [hx]))]
  simp only [pyJsonDumpsStr, serStr, hfm m hm]

theorem gmodSpawnCmd_shape (m : List Char)
    (hm : ∀ c ∈ m, 0x20 ≤ c.toNat ∧ c.toNat ≤ 0x7e) (dist : Int) (cid sid : Nat) :
    gmodSpawnCmd m dist cid sid =
      '\x7b' :: (joinMembers [' '] (gmodSpawnMembers m dist cid sid) ++ ['\x7d']) := by
  simp only [gmodSpawnCmd, gmodSpawnMembers, pyJsonDumpsStr_printable m hm,
    joinMembers, serStr, serScalar, List.append_assoc, List.cons_append,
    List.nil_append, List.singleton_append]
  rfl

theorem gmodPingCmd_shape (cid sid : Nat) :
    gmodPingCmd cid sid =
      '\x7b' :: (joinMembers [' ']
        [("command".data, .jstr "ping".data),
         ("id".data, .jnum (natDigits cid)),
         ("session".data, .jnum (natDigits sid))] ++ ['\x7d']) := by
  simp only [gmodPingCmd, joinMembers, serStr, serScalar,
    List.append_assoc, List.cons_append, List.nil_append, List.singleton_append]
  rfl

theorem sourceSpawnMembers_ok (m : List Char) (hm : ∀ c ∈ m, 0x20 ≤ c.toNat)
    (dist cid sid : Nat) :
    ∀ p ∈ sourceSpawnMembers m dist cid sid, memberOk p := by
  simp only [sourceSpawnMembers, List.mem_cons, List.not_mem_nil, or_false,
    forall_eq_or_imp, forall_eq, memberOk, scalarOk]
  exact ⟨⟨by decide, by decide⟩, ⟨by decide, hm⟩,
    ⟨by decide, (dist : Int), (intDigits_ofNat dist).symm⟩,
    ⟨by decide, (cid : Int), (intDigits_ofNat cid).symm⟩,
    ⟨by decide, (sid : Int), (intDigits_ofNat sid).symm⟩⟩

theorem gmodSpawnMembers_ok (m : List Char) (hm : ∀ c ∈ m, 0x20 ≤ c.toNat)
    (dist : Int) (cid sid : Nat) :
    ∀ p ∈ gmodSpawnMembers m dist cid sid, memberOk p := by
  simp only [gmodSpawnMembers, List.mem_cons, List.not_mem_nil, or_false,
    forall_eq_or_imp, forall_eq, memberOk, scalarOk]
  exact ⟨⟨by decide, by decide⟩, ⟨by decide, hm⟩,
    ⟨by decide, dist, rfl⟩,
    ⟨by decide, (cid : Int), (intDigits_ofNat cid).symm⟩,
    ⟨by decide, (sid : Int), (intDigits_ofNat sid).symm⟩⟩

theorem sourceSpawnCmd_parse (m : List Char) (hm : ∀ c ∈ m, 0x20 ≤ c.toNat)
    (dist cid sid : Nat) :
    parseJsonL (sourceSpawnCmd m dist cid sid) =
      some (.jobj (sourceSpawnMembers m dist cid sid)) := by
  rw [sourceSpawnCmd_shape]
  exact parseJsonL_flat [] (by decide) _ (sourceSpawnMembers_ok m hm dist cid sid)
    (by simp [sourceSpawnMembers])

theorem gmodSpawnCmd_parse (m : List Char)
    (hm : ∀ c ∈ m, 0x20 ≤ c.toNat ∧ c.toNat ≤ 0x7e) (dist : Int) (cid sid : Nat) :
    parseJsonL (gmodSpawnCmd m dist cid sid) =
      some (.jobj (gmodSpawnMembers m dist cid sid)) := by
  rw [gmodSpawnCmd_shape m hm]
  exact parseJsonL_flat [' '] (by decide) _
    (gmodSpawnMembers_ok m (fun c hc => (hm c hc).1) dist cid sid)
    (by simp [gmodSpawnMembers])

/-! ### Claims C2, C3, C10 -/

/-- **C2**: Every spawn command string written to the command file (by
`SourceBridge.spawn` via the VScript path, and by `GModBridge.spawn_model`)
contains exactly the five fields named `command`, `model`, `distance`,
`id`, `session` (in that order), with `command` equal to `"spawn_model"`:
parsing the written text as JSON yields a top-level object with exactly
those keys.  Stated for model paths without control characters (and, for
the `json.dumps` path, printable ASCII). -/
theorem spawn_cmd_exact_fields
    (m : List Char) (hm : ∀ c ∈ m, 0x20 ≤ c.toNat)
    (gm : List Char) (hgm : ∀ c ∈ gm, 0x20 ≤ c.toNat ∧ c.toNat ≤ 0x7e)
    (dist cid sid : Nat) (gdist : Int) (gcid gsid : Nat) :
    topLevelKeys (sourceSpawnCmd m dist cid sid) =
      some ["command".data, "model".data, "distance".data, "id".data, "session".data] ∧
    getField (sourceSpawnCmd m dist cid sid) "command".data =
      some (.jstr "spawn_model".data) ∧
    topLevelKeys (gmodSpawnCmd gm gdist gcid gsid) =
      some ["command".data, "model".data, "distance".data, "id".data, "session".data] ∧
    getField (gmodSpawnCmd gm gdist gcid gsid) "command".data =
      some (.jstr "spawn_model".data) := by
  refine ⟨?_, ?_, ?_, ?_⟩
  · simp [topLevelKeys, sourceSpawnCmd_parse m hm dist cid sid, sourceSpawnMembers]
  · simp [getField, sourceSpawnCmd_parse m hm dist cid sid, sourceSpawnMembers,
      List.find?]
  · simp [topLevelKeys, gmodSpawnCmd_parse gm hgm gdist gcid gsid, gmodSpawnMembers]
  · simp [getField, gmodSpawnCmd_parse gm hgm gdist gcid gsid, gmodSpawnMembers,
      List.find?]

/-- Witness for C2 at the model path the application actually spawns. -/
theorem spawn_cmd_exact_fields_witness :
    (∀ c ∈ "props/srcbox/srcbox.mdl".data, 0x20 ≤ c.toNat) ∧
    (∀ c ∈ "props/srcbox/srcbox.mdl".data, 0x20 ≤ c.toNat ∧ c.toNat ≤ 0x7e) ∧
    (topLevelKeys (sourceSpawnCmd "props/srcbox/srcbox.mdl".data 200 1 5) =
      some ["command".data, "model".data, "distance".data, "id".data, "session".data] ∧
    getField (sourceSpawnCmd "props/srcbox/srcbox.mdl".data 200 1 5) "command".data =
      some (.jstr "spawn_model".data) ∧
    topLevelKeys (gmodSpawnCmd "props/srcbox/srcbox.mdl".data 200 1 5) =
      some ["command".data, "model".data, "distance".data, "id".data, "session".data] ∧
    getField (gmodSpawnCmd "props/srcbox/srcbox.mdl".data 200 1 5) "command".data =
      some (.jstr "spawn_model".data)) :=
  ⟨by decide, by decide,
    spawn_cmd_exact_fields "props/srcbox/srcbox.mdl".data (by decide)
      "props/srcbox/srcbox.mdl".data (by decide) 200 1 5 200 1 5⟩

unseal natDigits pyReplace parseStrBody parseEsc parseU in
/-- **C3**: the flat-text protocol is not (always) JSON: there is a
command produced by the program — `SourceBridge.spawn`'s command text for
a model path containing a newline — whose written text is not parseable
as a JSON document (the hand-rolled escaping leaves control characters
unescaped, which RFC 8259 forbids inside strings). -/
theorem some_written_command_not_json :
    isJsonDoc (sourceSpawnCmd ('p' :: '\n' :: ['q']) 200 1 5) = false := by
  decide

/-- **C10**: `SourceBridge.spawn` escapes backslashes and double quotes of
the model path before embedding it; parsing the written command text and
unescaping the `model` field recovers exactly the model path passed in
(for model paths without control characters, which are the ones the
written text can represent at all). -/
theorem spawn_model_roundtrip (m : List Char) (hm : ∀ c ∈ m, 0x20 ≤ c.toNat)
    (dist cid sid : Nat) :
    getField (sourceSpawnCmd m dist cid sid) "model".data = some (.jstr m) := by
  simp [getField, sourceSpawnCmd_parse m hm dist cid sid, sourceSpawnMembers,
    List.find?]

/-- Witness for C10 at a model path containing both a backslash and a
double quote. -/
theorem spawn_model_roundtrip_witness :
    (∀ c ∈ ('a' :: '\\' :: '"' :: ['b']), 0x20 ≤ c.toNat) ∧
    getField (sourceSpawnCmd ('a' :: '\\' :: '"' :: ['b']) 200 1 5) "model".data =
      some (.jstr ('a' :: '\\' :: '"' :: ['b'])) :=
  ⟨by decide, spawn_model_roundtrip ('a' :: '\\' :: '"' :: ['b']) (by decide) 200 1 5⟩

/-- Effect of one step: sessions never change, and either a source-file
command carrying `commandCount + 1` is written (and the counter advances
by one), or a gmod-file command carrying `gmodCid + 1` is written (and
that counter advances by one), or nothing is written and both counters
are unchanged (a guard failed), or the operation's write failed after
the increment, so one counter advances by one but nothing is written. -/
theorem bridgeStep_effect (st : SBState) (op : BridgeOp) :
    (bridgeStep st op).1.sessionId = st.sessionId ∧
    gmodSession (bridgeStep st op).1 = gmodSession st ∧
    ((∃ w, (bridgeStep st op).2 = some (Channel.sourceFile, w) ∧
        w.cid = st.commandCount + 1 ∧ w.session = st.sessionId ∧
        (bridgeStep st op).1.commandCount = st.commandCount + 1 ∧
        gmodCid (bridgeStep st op).1 = gmodCid st) ∨
     (∃ w, (bridgeStep st op).2 = some (Channel.gmodFile, w) ∧
        w.cid = gmodCid st + 1 ∧ w.session = gmodSession st ∧
        (bridgeStep st op).1.commandCount = st.commandCount ∧
        gmodCid (bridgeStep st op).1 = gmodCid st + 1) ∨
     ((bridgeStep st op).2 = none ∧
        (bridgeStep st op).1.commandCount = st.commandCount ∧
        gmodCid (bridgeStep st op).1 = gmodCid st) ∨
     ((bridgeStep st op).2 = none ∧ opWriteOk op = false ∧
        (bridgeStep st op).1.commandCount = st.commandCount + 1 ∧
        gmodCid (bridgeStep st op).1 = gmodCid st) ∨
     ((bridgeStep st op).2 = none ∧ opWriteOk op = false ∧
        (bridgeStep st op).1.commandCount = st.commandCount ∧
        gmodCid (bridgeStep st op).1 = gmodCid st + 1)) := by
  match op with
  | .spawn m d wk =>
    simp only [bridgeStep, sbSpawnStep]
    split
    · exact ⟨by trivial, by trivial,
        Or.inr (Or.inr (Or.inl ⟨by trivial, by trivial, by trivial⟩))⟩
    · split
      · exact ⟨by trivial, by trivial,
          Or.inr (Or.inr (Or.inl ⟨by trivial, by trivial, by trivial⟩))⟩
      · split
        · rename_i g hg
          split
          · rename_i hconn
            simp only [gmodSpawnModelStep, hconn, if_true]
            match hwk : wk with
            | true =>
              refine ⟨by trivial, by simp [gmodSession, hg],
                Or.inr (Or.inl ⟨_, by trivial, ?_, ?_, by trivial, ?_⟩)⟩
              · simp [gmodCid, hg]
              · simp [gmodSession, hg]
              · simp [gmodCid, hg]
            | false =>
              refine ⟨by trivial, by simp [gmodSession, hg],
                Or.inr (Or.inr (Or.inr (Or.inr
                  ⟨by trivial, by simp [opWriteOk], by trivial, ?_⟩)))⟩
              simp [gmodCid, hg]
          · simp only [sbSpawnVScript]
            split
            · match hwk : wk with
              | true =>
                exact ⟨by trivial, by simp [gmodSession, hg],
                  Or.inl ⟨_, by trivial, by trivial, by trivial, by trivial,
                    by simp [gmodCid, hg]⟩⟩
              | false =>
                exact ⟨by trivial, by trivial,
                  Or.inr (Or.inr (Or.inr (Or.inl
                    ⟨by trivial, by simp [opWriteOk], by trivial, by trivial⟩)))⟩
            · exact ⟨by trivial, by trivial,
                Or.inr (Or.inr (Or.inl ⟨by trivial, by trivial, by trivial⟩))⟩
        · rename_i hg
          simp only [sbSpawnVScript]
          split
          · match hwk : wk with
            | true =>
              exact ⟨by trivial, by simp [gmodSession, hg],
                Or.inl ⟨_, by trivial, by trivial, by trivial, by trivial,
                  by simp [gmodCid, hg]⟩⟩
            | false =>
              exact ⟨by trivial, by trivial,
                Or.inr (Or.inr (Or.inr (Or.inl
                  ⟨by trivial, by simp [opWriteOk], by trivial, by trivial⟩)))⟩
          · exact ⟨by trivial, by trivial,
              Or.inr (Or.inr (Or.inl ⟨by trivial, by trivial, by trivial⟩))⟩
  | .reinstallAwp wk =>
    simp only [bridgeStep, sbReinstallStep]
    split
    · exact ⟨by trivial, by trivial,
        Or.inr (Or.inr (Or.inl ⟨by trivial, by trivial, by trivial⟩))⟩
    · match hwk : wk with
      | true =>
        exact ⟨by trivial, by trivial,
          Or.inl ⟨_, by trivial, by trivial, by trivial, by trivial,
            by simp [gmodCid]⟩⟩
      | false =>
        exact ⟨by trivial, by trivial,
          Or.inr (Or.inr (Or.inr (Or.inl
            ⟨by trivial, by simp [opWriteOk], by trivial, by simp [gmodCid]⟩)))⟩
  | .gmodSpawnModel m d wk =>
    simp only [bridgeStep]
    split
    · rename_i g hg
      simp only [gmodSpawnModelStep]
      split
      · match hwk : wk with
        | true =>
          refine ⟨by trivial, by simp [gmodSession, hg],
            Or.inr (Or.inl ⟨_, by trivial, ?_, ?_, by trivial, ?_⟩)⟩
          · simp [gmodCid, hg]
          · simp [gmodSession, hg]
          · simp [gmodCid, hg]
        | false =>
          refine ⟨by trivial, by simp [gmodSession, hg],
            Or.inr (Or.inr (Or.inr (Or.inr
              ⟨by trivial, by simp [opWriteOk], by trivial, ?_⟩)))⟩
          simp [gmodCid, hg]
      · exact ⟨by trivial, by simp [gmodSession, hg],
          Or.inr (Or.inr (Or.inl ⟨by trivial, by trivial, by simp [gmodCid, hg]⟩))⟩
    · exact ⟨by trivial, by trivial,
        Or.inr (Or.inr (Or.inl ⟨by trivial, by trivial, by trivial⟩))⟩
  | .gmodPing wk =>
    simp only [bridgeStep]
    split
    · rename_i g hg
      simp only [gmodPingStep]
      split
      · match hwk : wk with
        | true =>
          refine ⟨by trivial, by simp [gmodSession, hg],
            Or.inr (Or.inl ⟨_, by trivial, ?_, ?_, by trivial, ?_⟩)⟩
          · simp [gmodCid, hg]
          · simp [gmodSession, hg]
          · simp [gmodCid, hg]
        | false =>
          refine ⟨by trivial, by simp [gmodSession, hg],
            Or.inr (Or.inr (Or.inr (Or.inr
              ⟨by trivial, by simp [opWriteOk], by trivial, ?_⟩)))⟩
          simp [gmodCid, hg]
      · exact ⟨by trivial, by simp [gmodSession, hg],
          Or.inr (Or.inr (Or.inl ⟨by trivial, by trivial, by simp [gmodCid, hg]⟩))⟩
    · exact ⟨by trivial, by trivial,
        Or.inr (Or.inr (Or.inl ⟨by trivial, by trivial, by trivial⟩))⟩

theorem channelIds_append (ch : Channel) (a b : List (Channel × WireCmd)) :
    channelIds ch (a ++ b) = channelIds ch a ++ channelIds ch b := by
  simp [channelIds]

/-- Run invariant: each channel's written ids exceed the corresponding
pre-run counter and are strictly increasing; sessions never change and
every written command carries its bridge's session; and when every
operation's write succeeds, the ids continue the counters as consecutive
integers. -/
theorem bridgeRun_spec (ops : List BridgeOp) : ∀ st : SBState,
    (∀ i ∈ channelIds Channel.sourceFile (bridgeRun st ops).2,
      st.commandCount < i) ∧
    (channelIds Channel.sourceFile (bridgeRun st ops).2).Pairwise (· < ·) ∧
    (∀ i ∈ channelIds Channel.gmodFile (bridgeRun st ops).2, gmodCid st < i) ∧
    (channelIds Channel.gmodFile (bridgeRun st ops).2).Pairwise (· < ·) ∧
    (bridgeRun st ops).1.sessionId = st.sessionId ∧
    gmodSession (bridgeRun st ops).1 = gmodSession st ∧
    (∀ e ∈ (bridgeRun st ops).2,
       (e.1 = Channel.sourceFile → e.2.session = st.sessionId) ∧
       (e.1 = Channel.gmodFile → e.2.session = gmodSession st)) ∧
    ((∀ op ∈ ops, opWriteOk op = true) →
      channelIds Channel.sourceFile (bridgeRun st ops).2 =
        List.range' (st.commandCount + 1)
          (channelIds Channel.sourceFile (bridgeRun st ops).2).length ∧
      channelIds Channel.gmodFile (bridgeRun st ops).2 =
        List.range' (gmodCid st + 1)
          (channelIds Channel.gmodFile (bridgeRun st ops).2).length) := by
  induction ops with
  | nil =>
    intro st
    simp [bridgeRun, channelIds]
  | cons op ops ih =>
    intro st
    obtain ⟨hsess, hgsess, heff⟩ := bridgeStep_effect st op
    have hrun : bridgeRun st (op :: ops) =
        ((bridgeRun (bridgeStep st op).1 ops).1,
         (bridgeStep st op).2.toList ++ (bridgeRun (bridgeStep st op).1 ops).2) := rfl
    obtain ⟨ih1, ih2, ih3, ih4, ih5, ih6, ih7, ih8⟩ := ih (bridgeStep st op).1
    rcases heff with ⟨w, hw, hcid, hwsess, hcount, hgcid⟩ |
      ⟨w, hw, hcid, hwsess, hcount, hgcid⟩ | ⟨hw, hcount, hgcid⟩ |
      ⟨hw, hwk, hcount, hgcid⟩ | ⟨hw, hwk, hcount, hgcid⟩
    · -- a command was written to the source command file
      rw [hrun]
      simp only [hw, Option.toList_some, List.singleton_append]
      have hhd : channelIds Channel.sourceFile
          ((Channel.sourceFile, w) :: (bridgeRun (bridgeStep st op).1 ops).2) =
          w.cid :: channelIds Channel.sourceFile
            (bridgeRun (bridgeStep st op).1 ops).2 := by
        simp [channelIds]
      have hhd2 : channelIds Channel.gmodFile
          ((Channel.sourceFile, w) :: (bridgeRun (bridgeStep st op).1 ops).2) =
          channelIds Channel.gmodFile (bridgeRun (bridgeStep st op).1 ops).2 := by
        simp [channelIds]
      refine ⟨?_, ?_, ?_, ?_, by rw [ih5, hsess], by rw [ih6, hgsess], ?_, ?_⟩
      · rw [hhd]
        intro i hi
        rcases List.mem_cons.mp hi with hi | hi
        · subst hi; omega
        · have := ih1 i hi; omega
      · rw [hhd]
        refine List.pairwise_cons.mpr ⟨?_, ih2⟩
        intro i hi
        have := ih1 i hi
        omega
      · rw [hhd2]
        intro i hi
        have := ih3 i hi
        omega
      · rw [hhd2]; exact ih4
      · intro e he
        rcases List.mem_cons.mp he with he | he
        · subst he
          exact ⟨fun _ => by rw [hwsess], fun h => by simp at h⟩
        · have := ih7 e he
          exact ⟨fun h => by rw [(this.1 h), hsess], fun h => by rw [(this.2 h), hgsess]⟩
      · intro hall
        have htl : ∀ o ∈ ops, opWriteOk o = true := fun o ho => hall o (by simp [ho])
        obtain ⟨hs, hg2⟩ := ih8 htl
        constructor
        · rw [hhd, hs, hcount] at *
          rw [hcid]
          simp [List.range'_succ]
        · rw [hhd2, hg2, hgcid]
          simp [List.length_range']
    · -- a command was written to the gmod command file
      rw [hrun]
      simp only [hw, Option.toList_some, List.singleton_append]
      have hhd : channelIds Channel.gmodFile
          ((Channel.gmodFile, w) :: (bridgeRun (bridgeStep st op).1 ops).2) =
          w.cid :: channelIds Channel.gmodFile
            (bridgeRun (bridgeStep st op).1 ops).2 := by
        simp [channelIds]
      have hhd2 : channelIds Channel.sourceFile
          ((Channel.gmodFile, w) :: (bridgeRun (bridgeStep st op).1 ops).2) =
          channelIds Channel.sourceFile (bridgeRun (bridgeStep st op).1 ops).2 := by
        simp [channelIds]
      refine ⟨?_, ?_, ?_, ?_, by rw [ih5, hsess], by rw [ih6, hgsess], ?_, ?_⟩
      · rw [hhd2]
        intro i hi
        have := ih1 i hi
        omega
      · rw [hhd2]; exact ih2
      · rw [hhd]
        intro i hi
        rcases List.mem_cons.mp hi with hi | hi
        · subst hi; omega
        · have := ih3 i hi; omega
      · rw [hhd]
        refine List.pairwise_cons.mpr ⟨?_, ih4⟩
        intro i hi
        have := ih3 i hi
        omega
      · intro e he
        rcases List.mem_cons.mp he with he | he
        · subst he
          exact ⟨fun h => by simp at h, fun _ => by rw [hwsess]⟩
        · have := ih7 e he
          exact ⟨fun h => by rw [(this.1 h), hsess], fun h => by rw [(this.2 h), hgsess]⟩
      · intro hall
        have htl : ∀ o ∈ ops, opWriteOk o = true := fun o ho => hall o (by simp [ho])
        obtain ⟨hs, hg2⟩ := ih8 htl
        constructor
        · rw [hhd2, hs, hcount]
          simp [List.length_range']
        · rw [hhd, hg2, hgcid] at *
          rw [hcid]
          simp [List.range'_succ]
    · -- nothing was written, counters unchanged
      rw [hrun]
      simp only [hw, Option.toList_none, List.nil_append]
      refine ⟨fun i hi => by have := ih1 i hi; omega, ih2,
        fun i hi => by have := ih3 i hi; omega, ih4,
        by rw [ih5, hsess], by rw [ih6, hgsess], ?_, ?_⟩
      · intro e he
        have := ih7 e he
        exact ⟨fun h => by rw [(this.1 h), hsess], fun h => by rw [(this.2 h), hgsess]⟩
      · intro hall
        have htl : ∀ o ∈ ops, opWriteOk o = true := fun o ho => hall o (by simp [ho])
        obtain ⟨hs, hg2⟩ := ih8 htl
        rw [hcount] at hs
        rw [hgcid] at hg2
        exact ⟨by rw [hs]; simp [List.length_range'],
          by rw [hg2]; simp [List.length_range']⟩
    · -- the source-file write failed: the id was consumed, nothing written
      rw [hrun]
      simp only [hw, Option.toList_none, List.nil_append]
      refine ⟨fun i hi => by have := ih1 i hi; omega, ih2,
        fun i hi => by have := ih3 i hi; omega, ih4,
        by rw [ih5, hsess], by rw [ih6, hgsess], ?_, ?_⟩
      · intro e he
        have := ih7 e he
        exact ⟨fun h => by rw [(this.1 h), hsess], fun h => by rw [(this.2 h), hgsess]⟩
      · intro hall
        exact absurd (hall op (by simp)) (by simp [hwk])
    · -- the gmod-file write failed: the id was consumed, nothing written
      rw [hrun]
      simp only [hw, Option.toList_none, List.nil_append]
      refine ⟨fun i hi => by have := ih1 i hi; omega, ih2,
        fun i hi => by have := ih3 i hi; omega, ih4,
        by rw [ih5, hsess], by rw [ih6, hgsess], ?_, ?_⟩
      · intro e he
        have := ih7 e he
        exact ⟨fun h => by rw [(this.1 h), hsess], fun h => by rw [(this.2 h), hgsess]⟩
      · intro hall
        exact absurd (hall op (by simp)) (by simp [hwk])

/-- **C1 counterexample**: the counter is incremented *before* the
`try`-guarded write, so a failed write (e.g. `PermissionError`, which
`spawn` explicitly catches) consumes an id without writing a command:
after a failed first spawn write and a successful second one, the ids
carried by the written commands are `[2]` — not starting at 1 — refuting
the claim as stated. -/
theorem command_ids_skip_on_failed_write :
    channelIds Channel.sourceFile
        (bridgeRun (sbInit 1 2 (some ['g']) (some ['c']) none none)
          [.spawn ['m'] 200 false, .spawn ['m'] 200 true]).2 = [2] ∧
    (channelIds Channel.sourceFile
        (bridgeRun (sbInit 1 2 (some ['g']) (some ['c']) none none)
          [.spawn ['m'] 200 false, .spawn ['m'] 200 true]).2).head? ≠ some 1 := by
  constructor
  · decide
  · decide

/-- **C1 (amended)**: for every `SourceBridge` instance and every
`GModBridge` instance, the command id is incremented by exactly one
before each attempted command write (`spawn`, `reinstall_awp_outputs`,
`spawn_model`, `ping`); a write that fails after the increment (the
exception is caught and `False` returned) consumes its id without
writing, so within one session the ids carried by the written commands
on each command file are strictly increasing — and when every write
succeeds they are exactly the consecutive integers `1, 2, …`, starting
at 1. -/
theorem command_ids_strictly_increasing
    (tms r t : Nat) (gp cf ag : Option (List Char)) (conn withGmod : Bool)
    (ops : List BridgeOp) :
    (channelIds Channel.sourceFile
        (bridgeRun (sbInit tms r gp cf ag
          (if withGmod then some (gmodInit t conn) else none)) ops).2).Pairwise
        (· < ·) ∧
    (channelIds Channel.gmodFile
        (bridgeRun (sbInit tms r gp cf ag
          (if withGmod then some (gmodInit t conn) else none)) ops).2).Pairwise
        (· < ·) ∧
    ((∀ op ∈ ops, opWriteOk op = true) →
      channelIds Channel.sourceFile
          (bridgeRun (sbInit tms r gp cf ag
            (if withGmod then some (gmodInit t conn) else none)) ops).2 =
        List.range' 1 (channelIds Channel.sourceFile
          (bridgeRun (sbInit tms r gp cf ag
            (if withGmod then some (gmodInit t conn) else none)) ops).2).length ∧
      channelIds Channel.gmodFile
          (bridgeRun (sbInit tms r gp cf ag
            (if withGmod then some (gmodInit t conn) else none)) ops).2 =
        List.range' 1 (channelIds Channel.gmodFile
          (bridgeRun (sbInit tms r gp cf ag
            (if withGmod then some (gmodInit t conn) else none)) ops).2).length ∧
      (∀ i, (channelIds Channel.sourceFile
          (bridgeRun (sbInit tms r gp cf ag
            (if withGmod then some (gmodInit t conn) else none)) ops).2).head? =
            some i → i = 1) ∧
      (∀ i, (channelIds Channel.gmodFile
          (bridgeRun (sbInit tms r gp cf ag
            (if withGmod then some (gmodInit t conn) else none)) ops).2).head? =
            some i → i = 1)) := by
  have hcc : (sbInit tms r gp cf ag
      (if withGmod then some (gmodInit t conn) else none)).commandCount = 0 := rfl
  have hgc : gmodCid (sbInit tms r gp cf ag
      (if withGmod then some (gmodInit t conn) else none)) = 0 := by
    cases withGmod <;> simp [sbInit, gmodInit, gmodCid]
  obtain ⟨_, h2, _, h4, _, _, _, h8⟩ := bridgeRun_spec ops
    (sbInit tms r gp cf ag (if withGmod then some (gmodInit t conn) else none))
  refine ⟨h2, h4, ?_⟩
  intro hall
  obtain ⟨hs, hg2⟩ := h8 hall
  rw [hcc] at hs
  rw [hgc] at hg2
  refine ⟨hs, hg2, ?_, ?_⟩
  · intro i hi
    rw [hs] at hi
    rcases hn : (channelIds Channel.sourceFile
        (bridgeRun (sbInit tms r gp cf ag
          (if withGmod then some (gmodInit t conn) else none)) ops).2).length
      with _ | n
    · rw [hn] at hi; simp at hi
    · rw [hn, List.range'_succ] at hi
      simp at hi
      omega
  · intro i hi
    rw [hg2] at hi
    rcases hn : (channelIds Channel.gmodFile
        (bridgeRun (sbInit tms r gp cf ag
          (if withGmod then some (gmodInit t conn) else none)) ops).2).length
      with _ | n
    · rw [hn] at hi; simp at hi
    · rw [hn, List.range'_succ] at hi
      simp at hi
      omega

/-- **C4**: the session identifier placed in every written command is
derived from wall-clock time and fixed at construction: the
`SourceBridge` session is `int(time.time()*1000) + random.randint(0,9999)`
(`tms + r` with `r ≤ 9999`), the `GModBridge` session is
`int(time.time())` (`t`); every written command carries the respective
value and neither changes over any sequence of operations. -/
theorem session_ids_wall_clock_fixed (tms r t : Nat) (hr : r ≤ 9999)
    (gp cf ag : Option (List Char)) (conn : Bool) (ops : List BridgeOp) :
    (sbInit tms r gp cf ag (some (gmodInit t conn))).sessionId = tms + r ∧
    gmodSession (sbInit tms r gp cf ag (some (gmodInit t conn))) = t ∧
    (bridgeRun (sbInit tms r gp cf ag (some (gmodInit t conn))) ops).1.sessionId =
      tms + r ∧
    gmodSession (bridgeRun (sbInit tms r gp cf ag (some (gmodInit t conn))) ops).1 = t ∧
    (∀ e ∈ (bridgeRun (sbInit tms r gp cf ag (some (gmodInit t conn))) ops).2,
       (e.1 = Channel.sourceFile → e.2.session = tms + r) ∧
       (e.1 = Channel.gmodFile → e.2.session = t)) := by
  obtain ⟨_, _, _, _, h3, h4, h5, _⟩ := bridgeRun_spec ops
    (sbInit tms r gp cf ag (some (gmodInit t conn)))
  exact ⟨rfl, rfl, h3, h4, h5⟩

/-- Witness for C4 at concrete construction parameters. -/
theorem session_ids_wall_clock_fixed_witness :
    (7 : Nat) ≤ 9999 ∧
    ((sbInit 1000 7 none none none (some (gmodInit 42 true))).sessionId = 1000 + 7 ∧
    gmodSession (sbInit 1000 7 none none none (some (gmodInit 42 true))) = 42 ∧
    (bridgeRun (sbInit 1000 7 none none none (some (gmodInit 42 true)))
      [.gmodPing true]).1.sessionId = 1000 + 7 ∧
    gmodSession (bridgeRun (sbInit 1000 7 none none none (some (gmodInit 42 true)))
      [.gmodPing true]).1 = 42 ∧
    (∀ e ∈ (bridgeRun (sbInit 1000 7 none none none (some (gmodInit 42 true)))
        [.gmodPing true]).2,
       (e.1 = Channel.sourceFile → e.2.session = 1000 + 7) ∧
       (e.1 = Channel.gmodFile → e.2.session = 42))) :=
  ⟨by decide,
   session_ids_wall_clock_fixed 1000 7 42 (by decide) none none none true [.gmodPing true]⟩

/-- **C5**: the background watcher started by `start_listening` checks
the response file's modification time and sleeps 0.05 s between checks
(1 s after an internal error), reading the file only when the
modification time increased; and its only cancellation mechanism is the
`running` flag: once it observes `running = False` the loop performs no
further iterations — the trace is cut at that point no matter what the
environment would offer afterwards, so the response file is never read
again and the loop terminates. -/
theorem watcher_poll_structure_and_cancellation
    (rf : Option (List Char)) (last : Nat) (e : WatchEnv) :
    ((watchBody rf last e).2.getLast? = some (if e.err then .sleep 1000 else .sleep 50)) ∧
    (WatchAction.readFile ∈ (watchBody rf last e).2 →
      e.err = false ∧ e.fileExists = true ∧
      ∃ mt, e.mtime = some mt ∧ last < mt) ∧
    (∀ pre rest rest' : List WatchEnv, e.running = false →
      watchLoop rf (pre ++ e :: rest) last = watchLoop rf (pre ++ e :: rest') last) ∧
    (∀ rest : List WatchEnv, e.running = false →
      watchLoop rf (e :: rest) last = []) := by
  refine ⟨?_, ?_, ?_, ?_⟩
  · by_cases herr : e.err
    · simp [watchBody, herr]
    · simp only [watchBody, herr, Bool.false_eq_true, if_false]
      by_cases hex : pyTruthy rf && e.fileExists
      · simp only [hex, if_true]
        rcases hmt : e.mtime with _ | mt
        · simp
        · by_cases hlt : last < mt <;> simp [hlt]
      · simp [hex]
  · intro hread
    by_cases herr : e.err
    · simp [watchBody, herr] at hread
    · refine ⟨by simpa using herr, ?_⟩
      simp only [watchBody, herr, Bool.false_eq_true, if_false] at hread
      by_cases hex : pyTruthy rf && e.fileExists
      · simp only [hex, if_true] at hread
        rcases hmt : e.mtime with _ | mt
        · rw [hmt] at hread; simp at hread
        · rw [hmt] at hread
          by_cases hlt : last < mt
          · simp only [Bool.and_eq_true] at hex
            exact ⟨hex.2, mt, rfl, hlt⟩
          · simp [hlt] at hread
      · simp [hex] at hread
  · intro pre rest rest' hrun
    induction pre generalizing last with
    | nil => simp [watchLoop, hrun]
    | cons x xs ih =>
      simp only [List.cons_append, watchLoop, List.append_eq]
      split
      · rw [ih]
      · rfl
  · intro rest hrun
    simp [watchLoop, hrun]

/-- Witness for C5: with the flag observed false, the loop runs no
iteration at all. -/
theorem watcher_cancellation_witness :
    watchLoop (some ['x']) [⟨false, true, some 5, false⟩] 0 = [] :=
  (watcher_poll_structure_and_cancellation (some ['x']) 0
    ⟨false, true, some 5, false⟩).2.2.2 [] rfl

theorem firstDedup_subset {α : Type} [DecidableEq α] (l : List α) :
    ∀ x ∈ firstDedup l, x ∈ l := by
  induction l using firstDedup.induct with
  | case1 => simp [firstDedup]
  | case2 y rest ih =>
    intro x hx
    rw [firstDedup] at hx
    rcases List.mem_cons.mp hx with hx | hx
    · simp [hx]
    · have := ih x hx
      exact List.mem_cons_of_mem _ (List.mem_of_mem_filter this)

/-- The append loop produces the accumulator followed by the
first-occurrence deduplication of the existing, not-yet-present collapsed
captures. -/
theorem vdfLoop_spec (ex : List Char → Bool) (ms : List (List Char)) :
    ∀ libs : List (List Char),
      vdfLoop ex ms libs =
        libs ++ firstDedup ((ms.map (pyReplace ['\\', '\\'] ['\\'])).filter
          (fun p => ex p && !libs.contains p)) := by
  induction ms with
  | nil => intro libs; simp [vdfLoop, firstDedup]
  | cons m rest ih =>
    intro libs
    by_cases hc : (ex (pyReplace ['\\', '\\'] ['\\'] m) &&
        !libs.contains (pyReplace ['\\', '\\'] ['\\'] m)) = true
    · rw [vdfLoop]
      simp only [hc, if_true]
      rw [ih (libs ++ [pyReplace ['\\', '\\'] ['\\'] m])]
      simp only [List.map_cons, List.filter_cons, hc, if_true]
      rw [firstDedup]
      simp only [List.append_assoc, List.singleton_append]
      congr 2
      congr 1
      rw [List.filter_filter]
      apply List.filter_congr
      intro p _
      cases hex : ex p
      · simp
      · simp only [Bool.true_and]
        by_cases hp : p = pyReplace ['\\', '\\'] ['\\'] m
        · subst hp
          simp [List.elem_eq_mem]
        · simp [List.elem_eq_mem, List.mem_append, hp]
    · rw [vdfLoop]
      simp only [hc, if_false]
      rw [ih libs]
      simp only [List.map_cons, List.filter_cons, hc, if_false,
        Bool.false_eq_true]

/-- **C6**: `_parse_library_folders_vdf` returns a non-empty list whose
first element is `steam_path`; each further element is a collapsed regex
capture from the VDF text that exists on disk, appended in file order
with duplicates suppressed (first occurrence kept); and when the VDF
file is absent or reading raises, the result is exactly
`[steam_path]`. -/
theorem parse_library_folders_vdf_spec (steamPath : List Char)
    (ex : List Char → Bool) :
    parseLibraryFoldersVdf steamPath none ex = [steamPath] ∧
    (∀ text,
      parseLibraryFoldersVdf steamPath (some text) ex =
        steamPath :: firstDedup
          (((findallPaths text).map (pyReplace ['\\', '\\'] ['\\'])).filter
            (fun p => ex p && !(decide (p = steamPath))))) ∧
    (∀ content,
      (parseLibraryFoldersVdf steamPath content ex).head? = some steamPath) ∧
    (∀ text p, p ∈ (parseLibraryFoldersVdf steamPath (some text) ex).tail →
      ex p = true ∧ p ∈ (findallPaths text).map (pyReplace ['\\', '\\'] ['\\'])) := by
  have hsome : ∀ text,
      parseLibraryFoldersVdf steamPath (some text) ex =
        steamPath :: firstDedup
          (((findallPaths text).map (pyReplace ['\\', '\\'] ['\\'])).filter
            (fun p => ex p && !(decide (p = steamPath)))) := by
    intro text
    show vdfLoop ex (findallPaths text) [steamPath] = _
    rw [vdfLoop_spec ex (findallPaths text) [steamPath]]
    simp [List.contains_cons]
  refine ⟨rfl, hsome, ?_, ?_⟩
  · intro content
    match content with
    | none => rfl
    | some text => rw [hsome text]; rfl
  · intro text p hp
    rw [hsome text] at hp
    simp only [List.tail_cons] at hp
    have h1 := firstDedup_subset _ p hp
    have h2 := List.mem_of_mem_filter h1
    have h3 := List.of_mem_filter h1
    simp only [Bool.and_eq_true] at h3
    exact ⟨h3.1, h2⟩

theorem dedupSeen_nil_eq_firstDedup {α : Type} [DecidableEq α] (l : List α) :
    ∀ seen : List α, dedupSeen l seen = firstDedup (l.filter (fun c => !seen.contains c)) := by
  induction l with
  | nil => intro seen; simp [dedupSeen, firstDedup]
  | cons c rest ih =>
    intro seen
    by_cases hc : seen.contains c = true
    · rw [dedupSeen]
      simp only [hc, if_true]
      rw [ih seen]
      have hm : c ∈ seen := by simpa [List.elem_eq_mem] using hc
      simp [List.filter_cons, List.elem_eq_mem, hm]
    · rw [dedupSeen]
      simp only [hc, if_false]
      rw [ih (c :: seen)]
      have hfc : rest.filter (fun x => !(c :: seen).contains x) =
          (rest.filter (fun x => !seen.contains x)).filter (fun y => y ≠ c) := by
        rw [List.filter_filter]
        apply List.filter_congr
        intro p _
        by_cases hp : p = c
        · subst hp; simp [List.elem_eq_mem]
        · simp [List.elem_eq_mem, hp]
      rw [hfc]
      simp only [List.filter_cons, hc, Bool.not_false, if_true, firstDedup]
      simp

theorem firstIsDir_eq_find? (env : PathEnv) (l : List (List Char)) :
    firstIsDir env l = l.find? env.isdir := by
  induction l with
  | nil => rfl
  | cons c rest ih =>
    rw [firstIsDir, List.find?]
    by_cases hc : env.isdir c = true
    · simp [hc]
    · simp only [Bool.not_eq_true] at hc
      simp [hc, ih]

/-- **C9**: `_resolve_game_path` generates the candidate directories in
the fixed priority order of `resolveCandidates` (normalized absolute
argument; then joins to the exe directory, its parent, and the
`sourcemods` and `common` subdirectories of the steamapps root when the
exe path contains `steamapps`), deduplicates them preserving first
occurrence, and returns the first candidate that is an existing
directory — `none` exactly when the argument is empty or no candidate is
an existing directory. -/
theorem resolve_game_path_spec (env : PathEnv) (gameArg : List Char)
    (exePath : Option (List Char)) :
    (gameArg.isEmpty = true → resolveGamePath env gameArg exePath = none) ∧
    (gameArg.isEmpty = false →
      resolveGamePath env gameArg exePath =
        (firstDedup (resolveCandidates env
            (env.expanduser (pyStrip '"' gameArg))
            (resolveExeDir env exePath))).find? env.isdir) ∧
    (resolveGamePath env gameArg exePath = none ↔
      (gameArg.isEmpty = true ∨
       ∀ c ∈ firstDedup (resolveCandidates env
            (env.expanduser (pyStrip '"' gameArg))
            (resolveExeDir env exePath)), env.isdir c = false)) := by
  have hmain : gameArg.isEmpty = false →
      resolveGamePath env gameArg exePath =
        (firstDedup (resolveCandidates env
            (env.expanduser (pyStrip '"' gameArg))
            (resolveExeDir env exePath))).find? env.isdir := by
    intro h
    simp only [resolveGamePath, h, Bool.false_eq_true, if_false]
    rw [firstIsDir_eq_find?, dedupSeen_nil_eq_firstDedup]
    simp
  refine ⟨fun h => by simp [resolveGamePath, h], hmain, ?_⟩
  by_cases h : gameArg.isEmpty
  · simp only [h, true_or, iff_true]
    simp [resolveGamePath, h]
  · have h' : gameArg.isEmpty = false := by simpa using h
    rw [hmain h']
    simp only [h', Bool.false_eq_true, false_or]
    rw [List.find?_eq_none]
    constructor
    · intro hall c hc
      have := hall c hc
      simpa using this
    · intro hall c hc
      simp [hall c hc]

/-- Witness for C9 at a concrete environment and argument. -/
theorem resolve_game_path_spec_witness :
    ("mod".data.isEmpty = false) ∧
    (resolveGamePath
        (PathEnv.mk id (fun _ => true) id (fun a b => a ++ b) (fun _ => [])
          (fun _ => true))
        "mod".data (some "hl2.exe".data) =
      (firstDedup (resolveCandidates
          (PathEnv.mk id (fun _ => true) id (fun a b => a ++ b) (fun _ => [])
            (fun _ => true))
          ((PathEnv.mk id (fun _ => true) id (fun a b => a ++ b) (fun _ => [])
            (fun _ => true)).expanduser (pyStrip '"' "mod".data))
          (resolveExeDir
            (PathEnv.mk id (fun _ => true) id (fun a b => a ++ b) (fun _ => [])
              (fun _ => true))
            (some "hl2.exe".data)))).find?
        (PathEnv.mk id (fun _ => true) id (fun a b => a ++ b) (fun _ => [])
          (fun _ => true)).isdir) :=
  ⟨by decide,
   (resolve_game_path_spec
     (PathEnv.mk id (fun _ => true) id (fun a b => a ++ b) (fun _ => [])
       (fun _ => true))
     "mod".data (some "hl2.exe".data)).2.1 (by decide)⟩

/-- **C7**: every public bridge operation that can fail returns a
boolean rather than propagating an exception: for all states and all
outcomes of the fallible primitives each operation yields `Except.ok`,
and when every primitive it reaches raises, the result is `ok false`
(catch, log, continue). -/
theorem bridge_ops_catch_and_return_false :
    (∀ v w, (installListenerExc v w).isOk = true) ∧
    (∀ v w, (installPickerExc v w).isOk = true) ∧
    (∀ v w, (installAwpQuitExc v w).isOk = true) ∧
    (∀ v w, (installAutoSpawnerExc v w).isOk = true) ∧
    (∀ v w, (setupMapspawnExc v w).isOk = true) ∧
    (∀ g w, (startListeningExc g w).isOk = true) ∧
    (∀ c w, (gmodSpawnModelExc c w).isOk = true) ∧
    (∀ c w, (gmodPingExc c w).isOk = true) ∧
    (∀ st m gw vw iw wa lb, (spawnExc st m gw vw iw wa lb).isOk = true) ∧
    (∀ v, installListenerExc v (.error .exc) = .ok false) ∧
    (∀ v, installPickerExc v (.error .exc) = .ok false) ∧
    (∀ v, installAwpQuitExc v (.error .exc) = .ok false) ∧
    (∀ v, installAutoSpawnerExc v (.error .exc) = .ok false) ∧
    (∀ v, setupMapspawnExc v (.error .exc) = .ok false) ∧
    (∀ g, startListeningExc g (.error .exc) = .ok false) ∧
    (∀ c, gmodSpawnModelExc c (.error .exc) = .ok false) ∧
    (∀ c, gmodPingExc c (.error .exc) = .ok false) ∧
    (∀ st m iw wa,
      spawnExc st m (.error .exc) (.error .exc) iw wa (.error .exc) = .ok false) := by
  have hsimple : ∀ (v : Option (List Char)) (w : Except PyExc Unit),
      ((if !pyTruthy v then (pure false : Except PyExc Bool)
        else pyTry (w.bind fun _ => pure true) (fun _ => pure false))).isOk = true := by
    intro v w
    split
    · rfl
    · match w with
      | .ok _ => rfl
      | .error _ => rfl
  refine ⟨hsimple, hsimple, hsimple, hsimple, hsimple, hsimple,
    fun c w => ?_, fun c w => ?_, fun st m gw vw iw wa lb => ?_,
    fun v => ?_, fun v => ?_, fun v => ?_, fun v => ?_, fun v => ?_,
    fun g => ?_, fun c => ?_, fun c => ?_, fun st m iw wa => ?_⟩
  · unfold gmodSpawnModelExc
    split
    · rfl
    · match w with
      | .ok _ => rfl
      | .error _ => rfl
  · unfold gmodPingExc
    split
    · rfl
    · match w with
      | .ok _ => rfl
      | .error _ => rfl
  · unfold spawnExc spawnLegacyExc gmodSpawnModelExc pyTry
    dsimp only
    repeat' split <;> try rfl
  · unfold installListenerExc; split <;> rfl
  · unfold installPickerExc; split <;> rfl
  · unfold installAwpQuitExc; split <;> rfl
  · unfold installAutoSpawnerExc; split <;> rfl
  · unfold setupMapspawnExc; split <;> rfl
  · unfold startListeningExc; split <;> rfl
  · unfold gmodSpawnModelExc; split <;> rfl
  · unfold gmodPingExc; split <;> rfl
  · unfold spawnExc spawnLegacyExc gmodSpawnModelExc pyTry
    dsimp only
    repeat' split <;> try rfl

/-- **C8 counterexample**: on Windows with no registry entry, no running
Steam process and no default install, no Steam path is found — yet the
detection flow has already enumerated running processes (searching for
the Steam executable), contradicting the claim that no processes are
enumerated in that case. -/
theorem detect_enumerates_processes_without_steam :
    (getSteamInstallPath ⟨"Windows".data, none, none, none, none⟩).1 = none ∧
    DetectAction.enumProcessesForSteam ∈
      (detectRunningGame ⟨"Windows".data, none, none, none, none⟩ none
        (fun _ => false) (fun _ => (detectInitState, [])) detectInitState).2 := by
  constructor
  · rfl
  · simp [detectRunningGame, getSteamInstallPath]

/-- **C8 (amended)**: Steam libraries are parsed before the game-process
enumeration; when no Steam path is found, `_detect_running_game` returns
immediately after printing an error — the attributes are unchanged (all
`None` for a fresh instance), no files or directories are created, and
the game-process enumeration never runs — though the Steam lookup itself
may already have enumerated processes searching for the Steam
executable; and the Steam lookup performs no library parse, no game
enumeration and no file creation of its own. -/
theorem detect_flow_spec (env : SteamEnv) (vdfContent : Option (List Char))
    (ex : List Char → Bool)
    (cont : List (List Char) → DetectState × List DetectAction)
    (st : DetectState) :
    ((getSteamInstallPath env).1 = none →
      detectRunningGame env vdfContent ex cont st =
        (st, (getSteamInstallPath env).2 ++
          [.printErr "steam installation not found".data])) ∧
    (∀ p, (getSteamInstallPath env).1 = some p →
      detectRunningGame env vdfContent ex cont st =
        ((cont (parseLibraryFoldersVdf p vdfContent ex)).1,
         (getSteamInstallPath env).2 ++ [.parseVdf p] ++
           [.enumProcessesForGames] ++
           (cont (parseLibraryFoldersVdf p vdfContent ex)).2)) ∧
    (∀ q, DetectAction.parseVdf q ∉ (getSteamInstallPath env).2) ∧
    (DetectAction.enumProcessesForGames ∉ (getSteamInstallPath env).2) ∧
    (∀ q, DetectAction.writeFile q ∉ (getSteamInstallPath env).2) := by
  have htr : ∀ a ∈ (getSteamInstallPath env).2,
      a = DetectAction.readRegistry ∨ a = DetectAction.checkHomePaths ∨
      a = DetectAction.checkDefaultPaths ∨ a = DetectAction.enumProcessesForSteam := by
    intro a ha
    unfold getSteamInstallPath at ha
    split at ha
    · split at ha <;> [skip; split at ha] <;>
        first
          | (simp at ha; tauto)
          | (split at ha <;> (simp at ha; tauto))
    · split at ha
      · split at ha <;> [skip; split at ha] <;> (simp at ha; tauto)
      · simp at ha
  refine ⟨?_, ?_, ?_, ?_, ?_⟩
  · intro h
    unfold detectRunningGame
    rw [h]
  · intro p h
    unfold detectRunningGame
    rw [h]
  · intro q hq
    rcases htr _ hq with h | h | h | h <;> simp at h
  · intro hq
    rcases htr _ hq with h | h | h | h <;> simp at h
  · intro q hq
    rcases htr _ hq with h | h | h | h <;> simp at h

/-- Witness for the amended C1: a single all-successful spawn on a
configured bridge writes id 1. -/
theorem command_ids_strictly_increasing_witness :
    (∀ op ∈ ([.spawn ['m'] 200 true] : List BridgeOp), opWriteOk op = true) ∧
    (channelIds Channel.sourceFile (bridgeRun (sbInit 1 2 (some ['g']) (some ['c'])
        none (if false then some (gmodInit 0 false) else none))
        [.spawn ['m'] 200 true]).2).head? = some 1 ∧ (1 : Nat) = 1 :=
  ⟨by decide, by decide,
   ((command_ids_strictly_increasing 1 2 0 (some ['g']) (some ['c']) none false false
     [.spawn ['m'] 200 true]).2.2 (by decide)).2.2.1 1 (by decide)⟩

unseal findallPaths pyReplace in
/-- Witness for C6: a one-entry VDF text yields a tail entry that is an
existing captured path. -/
theorem parse_library_folders_vdf_spec_witness :
    (['D'] ∈ (parseLibraryFoldersVdf ['S'] (some "\"path\" \"D\"".data)
      (fun _ => true)).tail) ∧
    ((fun _ => true : List Char → Bool) ['D'] = true ∧
      ['D'] ∈ (findallPaths "\"path\" \"D\"".data).map (pyReplace ['\\', '\\'] ['\\'])) :=
  ⟨by decide,
   (parse_library_folders_vdf_spec ['S'] (fun _ => true)).2.2.2
     "\"path\" \"D\"".data ['D'] (by decide)⟩

/-- Witness for the amended C8: the early-return equation at the concrete
environment of the counterexample. -/
theorem detect_flow_spec_witness :
    detectRunningGame ⟨"Windows".data, none, none, none, none⟩ none
        (fun _ => false) (fun _ => (detectInitState, [])) detectInitState =
      (detectInitState,
       (getSteamInstallPath ⟨"Windows".data, none, none, none, none⟩).2 ++
         [.printErr "steam installation not found".data]) :=
  (detect_flow_spec ⟨"Windows".data, none, none, none, none⟩ none
    (fun _ => false) (fun _ => (detectInitState, [])) detectInitState).1 rfl

end SourceBox
